import Mathlib

/-!
Verification of the bulk data import/export job pipeline.

The definitions below are a shallow embedding of the repository's core:
the record validation schemas (`importSchemas`), the repository upserts
(`importRepository.ts`), the streaming ingestion processors
(`importProcessor`), the export formatters (`exportProcessor`), and the
polling worker loop (`importWorker`). Stateful code is modelled by
explicit state passing over a `Store` value; fallible code returns
`Except`.
-/

namespace BulkImport

/-- A JSON-like value, the shape of records flowing through the pipeline.
Numbers are modelled as integers (every numeric value the claims exercise
is an integer id or count). -/
inductive JVal where
  | null
  | bool (b : Bool)
  | num (n : Int)
  | str (s : String)
  | arr (elems : List JVal)
  | obj (fields : List (String × JVal))
deriving Repr

/-- Field access `o[k]` on a JS object: `none` models an absent key
(which reads as `undefined`). First binding wins, matching how the
objects built in this model are constructed (assignment semantics keep a
single binding per key). -/
def getField (fields : List (String × JVal)) (k : String) : Option JVal :=
  match fields.find? (fun p => p.1 == k) with
  | some p => some p.2
  | none => none

/-- JS assignment `o[k] = v` on an association list: overwrite the
existing binding in place, otherwise append. -/
def setField (fields : List (String × JVal)) (k : String) (v : JVal) :
    List (String × JVal) :=
  if fields.any (fun p => p.1 == k) then
    fields.map (fun p => if p.1 == k then (k, v) else p)
  else
    fields ++ [(k, v)]

/-- Is `pat` an initial run of `cs`? -/
def charsLead : List Char → List Char → Bool
  | [], _ => true
  | _ :: _, [] => false
  | p :: ps, c :: cs => p == c && charsLead ps cs

/-- Does `cs` contain `pat` as a contiguous run? -/
def charsHave (pat : List Char) : List Char → Bool
  | [] => pat.isEmpty
  | c :: cs => charsLead pat (c :: cs) || charsHave pat cs

/-- JS `String.prototype.includes`: substring test. -/
def jsIncludes (s pat : String) : Bool :=
  charsHave pat.toList s.toList

/-- JS `String.prototype.startsWith`. -/
def jsStartsWith (s pat : String) : Bool :=
  charsLead pat.toList s.toList

/-- JS `String.prototype.endsWith`. -/
def jsEndsWith (s pat : String) : Bool :=
  charsLead pat.toList.reverse s.toList.reverse

/-- JS `String.prototype.toLowerCase` (ASCII). -/
def toLowerStr (s : String) : String :=
  String.mk (s.toList.map Char.toLower)

/-- Is the line blank, i.e. is `line.trim()` falsy? -/
def isBlankLine (s : String) : Bool :=
  s.toList.all Char.isWhitespace

/-- JS `String.prototype.trim`. -/
def jsTrim (s : String) : String :=
  String.mk (((s.toList.dropWhile Char.isWhitespace).reverse.dropWhile
    Char.isWhitespace).reverse)

/-- Split a character list on a separator character (the semantics of
JS `split(sep)` for a one-character separator). -/
def splitChars (sep : Char) : List Char → List (List Char)
  | [] => [[]]
  | c :: cs =>
      let r := splitChars sep cs
      if c == sep then [] :: r
      else
        match r with
        | h :: t => (c :: h) :: t
        | [] => [[c]]

/-- JS `line.split(',')`. -/
def splitComma (s : String) : List String :=
  (splitChars ',' s.toList).map String.mk

/-- JS `parseInt` on the strings this pipeline feeds it (no `-`, since
strings containing `-` take the external-identifier path): optional
leading whitespace and `+`, then a nonempty digit prefix; `none` models
`NaN`. -/
def parseIntJS (s : String) : Option Int :=
  let t := s.toList.dropWhile Char.isWhitespace
  let t := match t with
    | '+' :: rest => rest
    | _ => t
  let digits := t.takeWhile Char.isDigit
  if digits.isEmpty then none
  else some (digits.foldl (fun acc c => acc * 10 + ((c.toNat - '0'.toNat) : Int)) (0 : Int))

/-- JS `.replace(\x2f\s+\x2fg, '')`: remove every whitespace character. -/
def stripWhitespace (s : String) : String :=
  String.mk (s.toList.filter (fun c => !c.isWhitespace))

/-- Models the zod `z.string().email()` library check: exactly one `@`
separating a nonempty local part from a nonempty dotted domain, no
whitespace. Every claim is independent of the exact boundary of this
library predicate; what matters is that a string accepted once is
accepted again unchanged, and that the local part is nonempty. -/
def isValidEmail (s : String) : Bool :=
  let cs := s.toList
  let lp := cs.takeWhile (fun c => c != '@')
  let dp := (cs.dropWhile (fun c => c != '@')).drop 1
  cs.count '@' == 1 && !lp.isEmpty && !dp.isEmpty && dp.contains '.' &&
    !(cs.any Char.isWhitespace)

/-- Scan for two adjacent hyphens. -/
def noDoubleHyphen : List Char → Bool
  | '-' :: '-' :: _ => false
  | _ :: rest => noDoubleHyphen rest
  | [] => true

/-- The slug pattern of `articleRecordSchema`: the regex
`[a-z0-9]+(-[a-z0-9]+)*` anchored at both ends and compiled with the `i`
flag, so letters of either case match. Spelled out over the character
list, a match is: nonempty, every character an ASCII letter/digit or a
hyphen, no hyphen at either end, and no two adjacent hyphens — exactly
the strings made of nonempty case-insensitive alphanumeric groups
separated by single hyphens. -/
def slugRegexTest (s : String) : Bool :=
  !s.toList.isEmpty &&
    s.toList.all (fun c => c.isAlphanum || c == '-') &&
    s.toList.head? != some '-' &&
    s.toList.getLast? != some '-' &&
    noDoubleHyphen s.toList

/-- JS "part before the first `@`" (`email.split('@')[0]`). -/
def emailLocalPart (s : String) : String :=
  String.mk (s.toList.takeWhile (fun c => c != '@'))

/-! ## Validation schemas (`importSchemas`)

Each zod schema is translated as a function `JVal → Except PipeErr R`.
Zod strips unknown keys and collects one issue per violated field. -/

/-- An error flowing through the pipeline: either a zod validation error
(a list of `(path, message)` issues) or a generic JS `Error` with a
`name` and a `message`. -/
inductive PipeErr where
  | zod (issues : List (String × String))
  | err (name : String) (message : String)
deriving Repr, DecidableEq

/-- Issue-collecting conjunction of two field parses (zod reports all
field issues of an object at once). -/
def zBoth {α β : Type} : Except (List (String × String)) α →
    Except (List (String × String)) β → Except (List (String × String)) (α × β)
  | .ok a, .ok b => .ok (a, b)
  | .error e, .ok _ => .error e
  | .ok _, .error e => .error e
  | .error e1, .error e2 => .error (e1 ++ e2)

/-- `z.string()` with a minimum length, required field. -/
def zStringMin (fields : List (String × JVal)) (k : String) (minLen : Nat) :
    Except (List (String × String)) String :=
  match getField fields k with
  | some (.str s) =>
      if minLen ≤ s.length then .ok s
      else .error [(k, "String must contain at least " ++ toString minLen ++ " character(s)")]
  | some _ => .error [(k, "Expected string")]
  | none => .error [(k, "Required")]

/-- `z.string().min(1).optional()`. -/
def zStringMinOpt (fields : List (String × JVal)) (k : String) (minLen : Nat) :
    Except (List (String × String)) (Option String) :=
  match getField fields k with
  | some (.str s) =>
      if minLen ≤ s.length then .ok (some s)
      else .error [(k, "String must contain at least " ++ toString minLen ++ " character(s)")]
  | some _ => .error [(k, "Expected string")]
  | none => .ok none

/-- `z.string().optional()`. -/
def zStringOpt (fields : List (String × JVal)) (k : String) :
    Except (List (String × String)) (Option String) :=
  match getField fields k with
  | some (.str s) => .ok (some s)
  | some _ => .error [(k, "Expected string")]
  | none => .ok none

/-- `z.union([z.number(), z.string()])` (number ids in this model are
integers, so the `.int()` refinement of the user/article id unions is
subsumed), required field. -/
def zIdReq (fields : List (String × JVal)) (k : String) :
    Except (List (String × String)) (Int ⊕ String) :=
  match getField fields k with
  | some (.num n) => .ok (.inl n)
  | some (.str s) => .ok (.inr s)
  | some _ => .error [(k, "Expected number or string")]
  | none => .error [(k, "Required")]

/-- Optional id union. -/
def zIdOpt (fields : List (String × JVal)) (k : String) :
    Except (List (String × String)) (Option (Int ⊕ String)) :=
  match getField fields k with
  | some (.num n) => .ok (some (.inl n))
  | some (.str s) => .ok (some (.inr s))
  | some _ => .error [(k, "Expected number or string")]
  | none => .ok none

/-- `z.boolean().default(true)`. -/
def zBoolDefaultTrue (fields : List (String × JVal)) (k : String) :
    Except (List (String × String)) Bool :=
  match getField fields k with
  | some (.bool b) => .ok b
  | some _ => .error [(k, "Expected boolean")]
  | none => .ok true

/-- The parsed output of `userRecordSchema`. -/
structure UserRecord where
  id : Int ⊕ String
  email : String
  name : String
  role : Option String
  active : Bool
  created_at : Option String
  updated_at : Option String
deriving Repr, DecidableEq

/-- `userRecordSchema`: required id (int or string), valid email,
nonempty name, optional role, `active` defaulting to true, optional
timestamp strings. -/
def userRecordSchema (v : JVal) : Except PipeErr UserRecord :=
  match v with
  | .obj fs =>
      let r := zBoth (zIdReq fs "id")
        (zBoth
          (match getField fs "email" with
            | some (.str s) =>
                if isValidEmail s then Except.ok s
                else Except.error [("email", "Invalid email format")]
            | some _ => Except.error [("email", "Expected string")]
            | none => Except.error [("email", "Required")])
          (zBoth (zStringMin fs "name" 1)
            (zBoth (zStringOpt fs "role")
              (zBoth (zBoolDefaultTrue fs "active")
                (zBoth (zStringOpt fs "created_at") (zStringOpt fs "updated_at"))))))
      match r with
      | .ok (id, email, name, role, active, created_at, updated_at) =>
          .ok ⟨id, email, name, role, active, created_at, updated_at⟩
      | .error issues => .error (.zod issues)
  | _ => .error (.zod [("", "Expected object, received other")])

/-- The parsed output of `articleRecordSchema` (before the two `.refine`
steps, `author_id` is optional; the first refine then requires it). -/
structure ArticleRecord where
  id : Option (Int ⊕ String)
  slug : String
  title : String
  description : Option String
  body : String
  author_id : Option (Int ⊕ String)
  tags : Option (List String)
  status : Option String
  published_at : Option (Option String)
deriving Repr, DecidableEq

/-- `z.array(z.string()).optional()`. -/
def zStringArrayOpt (fields : List (String × JVal)) (k : String) :
    Except (List (String × String)) (Option (List String)) :=
  match getField fields k with
  | some (.arr xs) =>
      let rec strs : List JVal → Option (List String)
        | [] => some []
        | .str s :: rest => (strs rest).map (fun r => s :: r)
        | _ => none
      match strs xs with
      | some ss => .ok (some ss)
      | none => .error [(k, "Expected array of strings")]
  | some _ => .error [(k, "Expected array")]
  | none => .ok none

/-- `z.enum(['draft', 'published']).optional()`. -/
def zStatusOpt (fields : List (String × JVal)) (k : String) :
    Except (List (String × String)) (Option String) :=
  match getField fields k with
  | some (.str s) =>
      if s == "draft" || s == "published" then .ok (some s)
      else .error [(k, "Invalid enum value")]
  | some _ => .error [(k, "Expected string")]
  | none => .ok none

/-- `z.string().optional().nullable()`: `none` is an absent key
(undefined), `some none` is JSON null, `some (some s)` is a string. -/
def zStringOptNullable (fields : List (String × JVal)) (k : String) :
    Except (List (String × String)) (Option (Option String)) :=
  match getField fields k with
  | some (.str s) => .ok (some (some s))
  | some .null => .ok (some none)
  | some _ => .error [(k, "Expected string or null")]
  | none => .ok none

/-- `articleRecordSchema`: the slug is matched against the case-insensitive
kebab regex, then the two `.refine` steps run in order — `author_id` must
be present, and a `draft` status must not come with a non-null
`published_at`. -/
def articleRecordSchema (v : JVal) : Except PipeErr ArticleRecord :=
  match v with
  | .obj fs =>
      let r := zBoth (zIdOpt fs "id")
        (zBoth
          (match getField fs "slug" with
            | some (.str s) =>
                if slugRegexTest s then Except.ok s
                else Except.error [("slug", "Must be kebab-case")]
            | some _ => Except.error [("slug", "Expected string")]
            | none => Except.error [("slug", "Required")])
          (zBoth (zStringMin fs "title" 1)
            (zBoth (zStringMinOpt fs "description" 1)
              (zBoth (zStringMin fs "body" 1)
                (zBoth (zIdOpt fs "author_id")
                  (zBoth (zStringArrayOpt fs "tags")
                    (zBoth (zStatusOpt fs "status")
                      (zStringOptNullable fs "published_at"))))))))
      match r with
      | .ok (id, slug, title, description, body, author_id, tags, status, published_at) =>
          if author_id.isNone then
            .error (.zod [("", "author_id is required")])
          else if status == some "draft" &&
              (match published_at with | some (some _) => true | _ => false) then
            .error (.zod [("", "Draft articles must not have published_at")])
          else
            .ok ⟨id, slug, title, description, body, author_id, tags, status, published_at⟩
      | .error issues => .error (.zod issues)
  | _ => .error (.zod [("", "Expected object, received other")])

/-- The parsed output of `commentRecordSchema`. -/
structure CommentRecord where
  id : Option (Int ⊕ String)
  article_id : Int ⊕ String
  user_id : Int ⊕ String
  body : String
  created_at : Option String
deriving Repr, DecidableEq

/-- `commentRecordSchema`: required article and user references (number
or string), body of length 1–2500, optional id and timestamp. -/
def commentRecordSchema (v : JVal) : Except PipeErr CommentRecord :=
  match v with
  | .obj fs =>
      let r := zBoth (zIdOpt fs "id")
        (zBoth (zIdReq fs "article_id")
          (zBoth (zIdReq fs "user_id")
            (zBoth
              (match getField fs "body" with
                | some (.str s) =>
                    if 1 ≤ s.length then
                      if s.length ≤ 2500 then Except.ok s
                      else Except.error [("body", "Body must be <=500 words")]
                    else Except.error [("body", "Body is required")]
                | some _ => Except.error [("body", "Expected string")]
                | none => Except.error [("body", "Required")])
              (zStringOpt fs "created_at"))))
      match r with
      | .ok (id, article_id, user_id, body, created_at) =>
          .ok ⟨id, article_id, user_id, body, created_at⟩
      | .error issues => .error (.zod issues)
  | _ => .error (.zod [("", "Expected object, received other")])

/-- The three importable resources. -/
inductive ResourceType where
  | users
  | articles
  | comments
deriving Repr, DecidableEq

/-- A validated record of any resource. -/
inductive ImportRecord where
  | user (r : UserRecord)
  | article (r : ArticleRecord)
  | comment (r : CommentRecord)
deriving Repr, DecidableEq

/-- `validateRecord`: dispatch to the resource's schema. -/
def validateRecord (resource : ResourceType) (v : JVal) : Except PipeErr ImportRecord :=
  match resource with
  | .users => (userRecordSchema v).map ImportRecord.user
  | .articles => (articleRecordSchema v).map ImportRecord.article
  | .comments => (commentRecordSchema v).map ImportRecord.comment

/-! ## The relational store and the repository upserts
(`importRepository.ts`)

The store is the external collaborator behind the prisma calls: rows
with sequential integer identities and unique keys (user email, article
slug, external identifiers). Timestamp columns are store-managed and not
modelled. -/

/-- A stored user row. -/
structure StoredUser where
  id : Nat
  email : String
  username : String
  password : String
  role : String
  active : Bool
  externalId : Option String
deriving Repr, DecidableEq

/-- A stored article row. -/
structure StoredArticle where
  id : Nat
  slug : String
  title : String
  description : String
  body : String
  externalId : Option String
  authorId : Nat
deriving Repr, DecidableEq

/-- A stored comment row. -/
structure StoredComment where
  id : Nat
  body : String
  articleId : Nat
  authorId : Nat
deriving Repr, DecidableEq

/-- The relational store: three tables plus their sequential id
counters. -/
structure Store where
  users : List StoredUser
  articles : List StoredArticle
  comments : List StoredComment
  nextUserId : Nat
  nextArticleId : Nat
  nextCommentId : Nat
deriving Repr, DecidableEq

/-- JS truthiness of `x || y` on an optional string (an absent or empty
string falls through to the fallback). -/
def jsOrStr (x : Option String) (y : String) : String :=
  match x with
  | some s => if s.toList.isEmpty then y else s
  | none => y

/-- `upsertUser` (`importRepository.ts`): derives a username from the
lowercased, whitespace-stripped name, falling back to the email's local
part; stores the record id as `externalId` when it is a string containing
`-`; upserts keyed on the unique email. Never fails. -/
def upsertUser (st : Store) (record : UserRecord) : Store × StoredUser :=
  let username := jsOrStr (some (stripWhitespace (toLowerStr record.name)))
    (emailLocalPart record.email)
  let password := "imported-user-change-me"
  let role := jsOrStr record.role "reader"
  let active := record.active
  let externalId : Option String :=
    match record.id with
    | .inr s => if s.toList.contains '-' then some s else none
    | .inl _ => none
  match st.users.find? (fun u => u.email == record.email) with
  | some u =>
      let u' : StoredUser :=
        { u with username := username, password := password, role := role,
                 active := active, externalId := externalId }
      ({ st with users := st.users.map (fun x => if x.email == record.email then u' else x) }, u')
  | none =>
      let u' : StoredUser :=
        { id := st.nextUserId, email := record.email, username := username,
          password := password, role := role, active := active,
          externalId := externalId }
      ({ st with users := st.users ++ [u'], nextUserId := st.nextUserId + 1 }, u')

/-- Resolve an id union value through JS truthiness (`record.author_id ||
record.authorId` where the schema-stripped record never has an
`authorId` key): `0` and the empty string fall through to `undefined`. -/
def jsOrIdRef (x : Option (Int ⊕ String)) : Option (Int ⊕ String) :=
  match x with
  | some (.inl n) => if n == 0 then none else some (.inl n)
  | some (.inr s) => if s.isEmpty then none else some (.inr s)
  | none => none

/-- Resolve a user reference exactly as `upsertArticle`/`upsertComment`
do: a string containing `-` is looked up against the users table's
unique `externalId` (a miss is a foreign-key violation named after
`field`); anything else goes through `parseInt`. -/
def resolveUserRef (st : Store) (field : String) (ref : Option (Int ⊕ String)) :
    Except PipeErr Int :=
  match ref with
  | some (.inr s) =>
      if s.toList.contains '-' then
        match st.users.find? (fun u => u.externalId == some s) with
        | some u => .ok (u.id : Int)
        | none => .error (.err "Error"
            ("Foreign key violation: " ++ field ++ " \"" ++ s ++
              "\" does not exist (user with externalId not found)"))
      else
        match parseIntJS s with
        | some n => .ok n
        | none => .error (.err "Error" ("Invalid " ++ field ++ ": " ++ s))
  | some (.inl n) => .ok n
  | none => .error (.err "Error" ("Invalid " ++ field ++ ": undefined"))

/-- Resolve an article reference (`article_id` on comments), mirroring
`resolveUserRef` over the articles table. -/
def resolveArticleRef (st : Store) (field : String) (ref : Option (Int ⊕ String)) :
    Except PipeErr Int :=
  match ref with
  | some (.inr s) =>
      if s.toList.contains '-' then
        match st.articles.find? (fun a => a.externalId == some s) with
        | some a => .ok (a.id : Int)
        | none => .error (.err "Error"
            ("Foreign key violation: " ++ field ++ " \"" ++ s ++
              "\" does not exist (article with externalId not found)"))
      else
        match parseIntJS s with
        | some n => .ok n
        | none => .error (.err "Error" ("Invalid " ++ field ++ ": " ++ s))
  | some (.inl n) => .ok n
  | none => .error (.err "Error" ("Invalid " ++ field ++ ": undefined"))

/-- `upsertArticle`: resolves the author reference (external identifier
lookup or integer), then upserts keyed on the unique slug with
`author: connect`, which the store rejects when no user row has the
resolved id (the prisma connect / FK behaviour of the external store). -/
def upsertArticle (st : Store) (record : ArticleRecord) : Except PipeErr (Store × StoredArticle) :=
  match resolveUserRef st "author_id" (jsOrIdRef record.author_id) with
  | .error e => .error e
  | .ok authorIdInt =>
      match st.users.find? (fun u => (u.id : Int) == authorIdInt) with
      | none => .error (.err "Error"
          ("An operation failed because it depends on one or more records that were required but not found: connect author " ++ toString authorIdInt))
      | some author =>
          let externalId : Option String :=
            match record.id with
            | some (.inr s) => if s.toList.contains '-' then some s else none
            | _ => none
          let description := jsOrStr record.description record.title
          match st.articles.find? (fun a => a.slug == record.slug) with
          | some a =>
              let a' : StoredArticle :=
                { a with title := record.title, description := description,
                         body := record.body, externalId := externalId,
                         authorId := author.id }
              let arts := st.articles.map (fun x => if x.slug == record.slug then a' else x)
              .ok ({ st with articles := arts }, a')
          | none =>
              let a' : StoredArticle :=
                { id := st.nextArticleId, slug := record.slug, title := record.title,
                  description := description, body := record.body,
                  externalId := externalId, authorId := author.id }
              .ok ({ st with articles := st.articles ++ [a'],
                             nextArticleId := st.nextArticleId + 1 }, a')

/-- `upsertComment`: resolves the article and user references, then —
comments having no natural key — always inserts a fresh row. The store's
foreign-key constraints reject a create whose resolved integer ids have
no matching rows. -/
def upsertComment (st : Store) (record : CommentRecord) : Except PipeErr (Store × StoredComment) :=
  match resolveArticleRef st "article_id" (some record.article_id) with
  | .error e => .error e
  | .ok articleIdInt =>
      match resolveUserRef st "user_id" (some record.user_id) with
      | .error e => .error e
      | .ok userIdInt =>
          match st.articles.find? (fun a => (a.id : Int) == articleIdInt) with
          | none => .error (.err "Error"
              ("Foreign key constraint failed: articleId " ++ toString articleIdInt))
          | some article =>
              match st.users.find? (fun u => (u.id : Int) == userIdInt) with
              | none => .error (.err "Error"
                  ("Foreign key constraint failed: authorId " ++ toString userIdInt))
              | some author =>
                  let c : StoredComment :=
                    { id := st.nextCommentId, body := record.body,
                      articleId := article.id, authorId := author.id }
                  .ok ({ st with comments := st.comments ++ [c],
                                 nextCommentId := st.nextCommentId + 1 }, c)

/-- The dispatch `processBatch` performs over the resource type. A
record variant that does not match the resource cannot arise in the
pipeline (validation produced it for the same resource). -/
def upsertRecord (resource : ResourceType) (st : Store) (r : ImportRecord) :
    Except PipeErr Store :=
  match resource, r with
  | .users, .user u => .ok (upsertUser st u).1
  | .articles, .article a => (upsertArticle st a).map (fun p => p.1)
  | .comments, .comment c => (upsertComment st c).map (fun p => p.1)
  | _, _ => .error (.err "Error" "record shape does not match resource")

/-! ## Job rows, import errors and `processBatch` (`importProcessor`) -/

/-- Job lifecycle status. -/
inductive JobStatus where
  | pending
  | processing
  | completed
  | failed
deriving Repr, DecidableEq

/-- The mutable fields of a job row that the pipeline touches. Counters
are integers (the CSV processor stores `recordIndex - 1`, which in the
source language can be negative). The two `…Set` flags record whether
the corresponding timestamp has been written. -/
structure JobRow where
  status : JobStatus
  totalRecords : Int
  successCount : Int
  errorCount : Int
  startedAtSet : Bool
  completedAtSet : Bool
deriving Repr, DecidableEq

/-- The raw data attached to an ImportError row: the source line
(NDJSON/CSV), the parsed JSON element (array format), or the validated
record (batch upsert failures). -/
inductive ErrData where
  | line (s : String)
  | json (v : JVal)
  | record (r : ImportRecord)
deriving Repr

/-- One row of the ImportError table. Append-only. -/
structure ImportErrorRow where
  importJobId : Nat
  recordIndex : Nat
  recordData : ErrData
  errorMessage : String
  errorType : String
deriving Repr

/-- `recordError`: a zod failure becomes a `VALIDATION_ERROR` with the
issues joined as `path: message; …`; any other `Error` contributes its
`name` and `message`. -/
def recordError (jobId recordIndex : Nat) (data : ErrData) (e : PipeErr) :
    ImportErrorRow :=
  match e with
  | .zod issues =>
      { importJobId := jobId, recordIndex := recordIndex, recordData := data,
        errorMessage :=
          String.intercalate "; " (issues.map (fun p => p.1 ++ ": " ++ p.2)),
        errorType := "VALIDATION_ERROR" }
  | .err name message =>
      { importJobId := jobId, recordIndex := recordIndex, recordData := data,
        errorMessage := message, errorType := name }

/-- The per-item loop of `processBatch`: each upsert failure is caught
independently, recorded as one ImportError, and counted, never aborting
the remaining items. -/
def processBatchLoop (upsert : Store → ImportRecord → Except PipeErr Store)
    (jobId : Nat) :
    List (ImportRecord × Nat) → Nat → Nat → Store → List ImportErrorRow →
    Nat × Nat × Store × List ImportErrorRow
  | [], s, e, st, errs => (s, e, st, errs)
  | item :: rest, s, e, st, errs =>
      match upsert st item.1 with
      | .ok st' => processBatchLoop upsert jobId rest (s + 1) e st' errs
      | .error er =>
          processBatchLoop upsert jobId rest s (e + 1) st
            (errs ++ [recordError jobId item.2 (.record item.1) er])

/-- The result of `processBatch`, bundling the `{success, error}` return
value with the updated job counters, store, and error table. -/
structure BatchOutcome where
  success : Nat
  error : Nat
  job : JobRow
  store : Store
  errors : List ImportErrorRow
deriving Repr

/-- `processBatch`: upsert every batched item, catching failures
per-item, then update the job counters by atomic increment. -/
def processBatch (upsert : Store → ImportRecord → Except PipeErr Store)
    (jobId : Nat) (batch : List (ImportRecord × Nat)) (job : JobRow)
    (store : Store) (errors : List ImportErrorRow) : BatchOutcome :=
  let r := processBatchLoop upsert jobId batch 0 0 store errors
  { success := r.1, error := r.2.1,
    job := { job with successCount := job.successCount + (r.1 : Int),
                      errorCount := job.errorCount + (r.2.1 : Int) },
    store := r.2.2.1, errors := r.2.2.2 }

/-! ## Streaming file processors -/

/-- The fixed flush size of the ingestion pipeline. -/
def BATCH_SIZE : Nat := 1000

/-- The in-flight state of one streaming ingestion. -/
structure IngestState where
  recordIndex : Nat
  successCount : Nat
  errorCount : Nat
  batch : List (ImportRecord × Nat)
  job : JobRow
  store : Store
  errors : List ImportErrorRow
deriving Repr

/-- Fresh ingestion state over a job row and store. -/
def initIngest (job : JobRow) (store : Store) : IngestState :=
  { recordIndex := 0, successCount := 0, errorCount := 0, batch := [],
    job := job, store := store, errors := [] }

/-- Handle one content record: assign it the current index, advance the
index, and either append the validated record to the batch (flushing a
full batch) or record the validation failure immediately. -/
def ingestRecord (upsert : Store → ImportRecord → Except PipeErr Store)
    (jobId : Nat) (parsed : Except PipeErr ImportRecord) (errData : ErrData)
    (st : IngestState) : IngestState :=
  let currentIndex := st.recordIndex
  let st1 := { st with recordIndex := st.recordIndex + 1 }
  match parsed with
  | .ok record =>
      let batch := st1.batch ++ [(record, currentIndex)]
      if BATCH_SIZE ≤ batch.length then
        let out := processBatch upsert jobId batch st1.job st1.store st1.errors
        { st1 with successCount := st1.successCount + out.success,
                   errorCount := st1.errorCount + out.error, batch := [],
                   job := out.job, store := out.store, errors := out.errors }
      else
        { st1 with batch := batch }
  | .error e =>
      { st1 with errorCount := st1.errorCount + 1,
                 errors := st1.errors ++ [recordError jobId currentIndex errData e] }

/-- Flush the final partial batch at stream end. -/
def flushBatch (upsert : Store → ImportRecord → Except PipeErr Store)
    (jobId : Nat) (st : IngestState) : IngestState :=
  if 0 < st.batch.length then
    let out := processBatch upsert jobId st.batch st.job st.store st.errors
    { st with successCount := st.successCount + out.success,
              errorCount := st.errorCount + out.error, batch := [],
              job := out.job, store := out.store, errors := out.errors }
  else st

/-- One NDJSON line: a blank line is skipped without consuming an index;
otherwise the line is parsed (`JSON.parse`, the `parseLine` parameter)
and validated inside one try boundary. -/
def ndjsonStep (parseLine : String → Except PipeErr JVal)
    (resource : ResourceType)
    (upsert : Store → ImportRecord → Except PipeErr Store) (jobId : Nat)
    (st : IngestState) (line : String) : IngestState :=
  if isBlankLine line then st
  else ingestRecord upsert jobId ((parseLine line).bind (validateRecord resource))
    (.line line) st

/-- `processNdjsonFile`: fold the line stream, flush the final batch,
then set `totalRecords`, `successCount` and `errorCount` absolutely. -/
def processNdjsonFile (parseLine : String → Except PipeErr JVal)
    (resource : ResourceType)
    (upsert : Store → ImportRecord → Except PipeErr Store) (jobId : Nat)
    (job : JobRow) (store : Store) (lines : List String) : IngestState :=
  let st := lines.foldl (ndjsonStep parseLine resource upsert jobId)
    (initIngest job store)
  let st := flushBatch upsert jobId st
  { st with job := { st.job with
      totalRecords := (st.recordIndex : Int),
      successCount := (st.successCount : Int),
      errorCount := (st.errorCount : Int) } }

/-- The integer fragment of the JS `Number()` coercion used on CSV
cells: an optional sign followed by a nonempty digit run. (Non-integer
numerics are never exercised by the claims.) -/
def jsNumberLit (s : String) : Option Int :=
  match s.toList with
  | '-' :: ds =>
      if !ds.isEmpty && ds.all Char.isDigit then
        some (-(ds.foldl (fun acc c => acc * 10 + ((c.toNat - '0'.toNat) : Int)) (0 : Int)))
      else none
  | ds =>
      if !ds.isEmpty && ds.all Char.isDigit then
        some (ds.foldl (fun acc c => acc * 10 + ((c.toNat - '0'.toNat) : Int)) (0 : Int))
      else none

/-- CSV cell coercion: empty/missing cell becomes `undefined`, the
literals `true`/`false` become booleans, numeric literals become
numbers, everything else stays a string. -/
def csvCoerceCell (value : Option String) : Option JVal :=
  match value with
  | none => none
  | some v =>
      if v == "" then none
      else if v == "true" then some (.bool true)
      else if v == "false" then some (.bool false)
      else
        match jsNumberLit v with
        | some n => some (.num n)
        | none => some (.str v)

/-- JS assignment on a record whose values may be `undefined`. -/
def setFieldOpt (fields : List (String × Option JVal)) (k : String)
    (v : Option JVal) : List (String × Option JVal) :=
  if fields.any (fun p => p.1 == k) then
    fields.map (fun p => if p.1 == k then (k, v) else p)
  else fields ++ [(k, v)]

/-- Build the record object for one CSV data line: split on commas, trim
each cell, then assign `record[header] = coerce(values[i])` for each
header in order. Keys left `undefined` read as missing. -/
def csvRecord (headers : List String) (line : String) : JVal :=
  let values := (splitComma line).map jsTrim
  let assigned := headers.enum.foldl
    (fun acc p => setFieldOpt acc p.2 (csvCoerceCell (values.get? p.1))) []
  .obj (assigned.filterMap (fun p => p.2.map (fun v => (p.1, v))))

/-- The CSV ingestion state also carries the parsed header row. -/
structure CsvState extends IngestState where
  headers : List String
deriving Repr

/-- One CSV line: blank lines are skipped; the first non-blank line is
the header row and consumes `recordIndex` 0; every later non-blank line
is parsed against the headers and validated. -/
def csvStep (resource : ResourceType)
    (upsert : Store → ImportRecord → Except PipeErr Store) (jobId : Nat)
    (st : CsvState) (line : String) : CsvState :=
  if isBlankLine line then st
  else if st.recordIndex == 0 then
    { st with
      headers := (splitComma line).map jsTrim,
      recordIndex := st.recordIndex + 1 }
  else
    let base := ingestRecord upsert jobId
      (validateRecord resource (csvRecord st.headers line)) (.line line)
      st.toIngestState
    { st with toIngestState := base }

/-- `processCsvFile`: fold the line stream, flush the final batch, then
store `recordIndex - 1` (the header consumed one index) as
`totalRecords` and set the counters absolutely. -/
def processCsvFile (resource : ResourceType)
    (upsert : Store → ImportRecord → Except PipeErr Store) (jobId : Nat)
    (job : JobRow) (store : Store) (lines : List String) : IngestState :=
  let st := lines.foldl (csvStep resource upsert jobId)
    { toIngestState := initIngest job store, headers := [] }
  let st := flushBatch upsert jobId st.toIngestState
  { st with job := { st.job with
      totalRecords := (st.recordIndex : Int) - 1,
      successCount := (st.successCount : Int),
      errorCount := (st.errorCount : Int) } }

/-- One element of a JSON-array source at its position. -/
def jsonStep (resource : ResourceType)
    (upsert : Store → ImportRecord → Except PipeErr Store) (jobId : Nat)
    (st : IngestState) (v : JVal) : IngestState :=
  ingestRecord upsert jobId (validateRecord resource v) (.json v) st

/-- `processJsonFile`: a non-array top level is job-fatal; otherwise
`totalRecords` is set up front to the array length and the loop mirrors
the streaming processors (the whole array is in memory). The final
update sets only the success and error counters. -/
def processJsonFile (resource : ResourceType)
    (upsert : Store → ImportRecord → Except PipeErr Store) (jobId : Nat)
    (job : JobRow) (store : Store) (content : JVal) :
    Except PipeErr IngestState :=
  match content with
  | .arr records =>
      let job := { job with totalRecords := (records.length : Int) }
      let st := records.foldl (jsonStep resource upsert jobId)
        (initIngest job store)
      let st := flushBatch upsert jobId st
      .ok { st with job := { st.job with
          successCount := (st.successCount : Int),
          errorCount := (st.errorCount : Int) } }
  | _ => .error (.err "Error" "JSON must be an array")

/-! ## `processImportJob` -/

/-- Is the source a remote URL (the two supported schemes)? -/
def isUrlPath (p : String) : Bool :=
  jsStartsWith p "http://" || jsStartsWith p "https://"

/-- The dispatched file format: for a downloaded URL the staging file's
extension is inferred by substring (`.ndjson` first, then `.csv`,
defaulting to the generic array format); a local path is dispatched by
its suffix. -/
inductive FileFormat where
  | ndjson
  | csv
  | json
deriving Repr, DecidableEq

/-- Format dispatch of `processImportJob`/`downloadFile`. -/
def importFormat (p : String) : FileFormat :=
  if isUrlPath p then
    if jsIncludes p ".ndjson" then .ndjson
    else if jsIncludes p ".csv" then .csv
    else .json
  else
    if jsEndsWith p ".ndjson" then .ndjson
    else if jsEndsWith p ".csv" then .csv
    else .json

/-- The environment one import job runs against: the job's source
location, what the download and filesystem yield, and the parsed source
content. `jsonContent = none` models a file whose bytes are not valid
JSON at all. -/
structure ImportEnv where
  filePath : Option String
  downloadStatus : Nat
  fileMissing : Bool
  srcLines : List String
  jsonContent : Option JVal
  resource : ResourceType
  parseLine : String → Except PipeErr JVal

/-- What one run of `processImportJob` leaves behind: the job row, the
store, the ImportError rows created, and the error re-raised to the
caller, if any. -/
structure ImportJobResult where
  job : JobRow
  store : Store
  errors : List ImportErrorRow
  thrown : Option PipeErr

/-- `processImportJob`: mark the job processing, resolve the source
(download when the path is a URL), dispatch on format, then mark the job
completed; any escaping error marks the job failed with a completion
timestamp and re-raises. Per-record errors never escape the processors. -/
def processImportJob (upsert : Store → ImportRecord → Except PipeErr Store)
    (jobId : Nat) (env : ImportEnv) (job0 : JobRow) (store : Store) :
    ImportJobResult :=
  let job := { job0 with status := .processing, startedAtSet := true }
  let fail := fun (e : PipeErr) =>
    { job := { job with status := JobStatus.failed, completedAtSet := true },
      store := store, errors := [], thrown := some e : ImportJobResult }
  match env.filePath with
  | none => fail (.err "Error" "No file path")
  | some p =>
      if isUrlPath p && env.downloadStatus != 200 then
        fail (.err "Error" ("Failed to download: HTTP " ++ toString env.downloadStatus))
      else if env.fileMissing then
        fail (.err "Error" "File not found")
      else
        match importFormat p with
        | .ndjson =>
            let st := processNdjsonFile env.parseLine env.resource upsert jobId
              job store env.srcLines
            { job := { st.job with status := .completed, completedAtSet := true },
              store := st.store, errors := st.errors, thrown := none }
        | .csv =>
            let st := processCsvFile env.resource upsert jobId job store env.srcLines
            { job := { st.job with status := .completed, completedAtSet := true },
              store := st.store, errors := st.errors, thrown := none }
        | .json =>
            match env.jsonContent with
            | none => fail (.err "SyntaxError" "Unexpected token in JSON")
            | some content =>
                match processJsonFile env.resource upsert jobId job store content with
                | .ok st =>
                    { job := { st.job with status := .completed, completedAtSet := true },
                      store := st.store, errors := st.errors, thrown := none }
                | .error e => fail e

/-! ## Export formatting (`exportProcessor`)

The cursor rows mirror what the paged scans yield (including the joined
author/article projections). A formatted record is an ordered list of
`(key, value)` pairs where a `none` value is JS `undefined`. -/

/-- The joined author projection on article and comment rows. -/
structure AuthorInfo where
  id : Nat
  externalId : Option String
deriving Repr, DecidableEq

/-- The joined article projection on comment rows. -/
structure ArticleInfo where
  id : Nat
  externalId : Option String
  slug : String
deriving Repr, DecidableEq

/-- A user row as the export cursor yields it. -/
structure UserRow where
  id : Nat
  externalId : Option String
  email : String
  username : String
  role : Option String
  active : Option Bool
  createdAt : Option String
  updatedAt : Option String
deriving Repr, DecidableEq

/-- An article row as the export cursor yields it (`status` and
`publishedAt` may be absent from the store schema). -/
structure ArticleRow where
  id : Nat
  externalId : Option String
  slug : String
  title : String
  body : String
  authorId : Nat
  author : Option AuthorInfo
  tagList : Option (List String)
  status : Option String
  publishedAt : Option String
  createdAt : Option String
deriving Repr, DecidableEq

/-- A comment row as the export cursor yields it. -/
structure CommentRow where
  id : Nat
  externalId : Option String
  articleId : Nat
  authorId : Nat
  body : String
  article : Option ArticleInfo
  author : Option AuthorInfo
  createdAt : Option String
deriving Repr, DecidableEq

/-- JS `ext || fallback` preferring an external identifier: a present,
nonempty external identifier wins. -/
def jsOrVal (ext : Option String) (fallback : JVal) : JVal :=
  match ext with
  | some s => if s.toList.isEmpty then fallback else .str s
  | none => fallback

/-- A `x?.y || z` chain on optional ISO strings: the first present,
nonempty string. -/
def jsOrOptStr (x : Option String) (y : Option String) : Option String :=
  match x with
  | some s => if s.toList.isEmpty then (match y with
      | some t => if t.toList.isEmpty then none else some t
      | none => none) else some s
  | none =>
      match y with
      | some t => if t.toList.isEmpty then none else some t
      | none => none

/-- `formatted[field] !== undefined`: an association lookup that sees a
defined value. -/
def getFieldOpt (fields : List (String × Option JVal)) (k : String) :
    Option (Option JVal) :=
  match fields.find? (fun p => p.1 == k) with
  | some p => some p.2
  | none => none

/-- JS assignment building the filtered object. -/
def filterFields (formatted : List (String × Option JVal))
    (fields : List String) : List (String × Option JVal) :=
  fields.foldl
    (fun acc f =>
      match getFieldOpt formatted f with
      | some (some v) => setFieldOpt acc f (some v)
      | _ => acc) []

/-- The full (unfiltered) export shape of a user record. -/
def formatUserFull (user : UserRow) : List (String × Option JVal) :=
  [("id", some (jsOrVal user.externalId (.num (user.id : Int)))),
   ("email", some (.str user.email)),
   ("name", some (.str user.username)),
   ("role", some (.str (jsOrStr user.role "user"))),
   ("active", some (.bool (user.active.getD true))),
   ("created_at", user.createdAt.map JVal.str),
   ("updated_at", user.updatedAt.map JVal.str)]

/-- `formatUserRecord`: the full shape, optionally restricted to the
caller's field list (fields whose value is `undefined` are dropped). -/
def formatUserRecord (user : UserRow) (fields : Option (List String)) :
    List (String × Option JVal) :=
  let formatted := formatUserFull user
  match fields with
  | some fs => filterFields formatted fs
  | none => formatted

/-- The full (unfiltered) export shape of an article record. -/
def formatArticleFull (article : ArticleRow) : List (String × Option JVal) :=
  [("id", some (jsOrVal article.externalId (.num (article.id : Int)))),
   ("slug", some (.str article.slug)),
   ("title", some (.str article.title)),
   ("body", some (.str article.body)),
   ("author_id", some (match article.author with
     | some a => jsOrVal a.externalId (.num (article.authorId : Int))
     | none => .num (article.authorId : Int))),
   ("tags", some (.arr ((article.tagList.getD []).map JVal.str))),
   ("status", some (.str (jsOrStr article.status "published"))),
   ("published_at", some (match jsOrOptStr article.publishedAt article.createdAt with
     | some s => .str s
     | none => .null))]

/-- `formatArticleRecord`: full shape plus optional field filtering. -/
def formatArticleRecord (article : ArticleRow) (fields : Option (List String)) :
    List (String × Option JVal) :=
  let formatted := formatArticleFull article
  match fields with
  | some fs => filterFields formatted fs
  | none => formatted

/-- The full (unfiltered) export shape of a comment record. -/
def formatCommentFull (comment : CommentRow) : List (String × Option JVal) :=
  [("id", some (jsOrVal comment.externalId (.num (comment.id : Int)))),
   ("article_id", some (match comment.article with
     | some a => jsOrVal a.externalId (.num (comment.articleId : Int))
     | none => .num (comment.articleId : Int))),
   ("user_id", some (match comment.author with
     | some a => jsOrVal a.externalId (.num (comment.authorId : Int))
     | none => .num (comment.authorId : Int))),
   ("body", some (.str comment.body)),
   ("created_at", comment.createdAt.map JVal.str)]

/-- `formatCommentRecord`: full shape plus optional field filtering. -/
def formatCommentRecord (comment : CommentRow) (fields : Option (List String)) :
    List (String × Option JVal) :=
  let formatted := formatCommentFull comment
  match fields with
  | some fs => filterFields formatted fs
  | none => formatted

/-- `JSON.stringify` of a formatted record: keys whose value is
`undefined` are omitted from the serialized object. -/
def stringifyRecord (formatted : List (String × Option JVal)) : JVal :=
  .obj (formatted.filterMap (fun p => p.2.map (fun v => (p.1, v))))

/-- The export cursor row for a stored user (timestamp columns are
store-managed and not part of the `Store` model). -/
def userRowOf (u : StoredUser) : UserRow :=
  { id := u.id, externalId := u.externalId, email := u.email,
    username := u.username, role := some u.role, active := some u.active,
    createdAt := none, updatedAt := none }

/-! ## The worker loop (`importWorker`) -/

/-- The worker's concurrency cap. -/
def MAX_CONCURRENT_JOBS : Nat := 3

/-- A job as the worker sees it. -/
structure WorkerJob where
  id : Nat
  createdAt : Nat
  status : JobStatus
deriving Repr, DecidableEq

/-- The worker-visible state: the two job tables and the in-memory
active-id set. -/
structure WorkerState where
  importJobs : List WorkerJob
  exportJobs : List WorkerJob
  activeJobs : List Nat
deriving Repr, DecidableEq

/-- `Set.add`: insert an id if absent. -/
def addActive (l : List Nat) (i : Nat) : List Nat :=
  if i ∈ l then l else l ++ [i]

/-- The pending-job query: jobs with status `pending` whose ids are not
in the active set, ordered by creation time ascending. -/
def pendingSorted (jobs : List WorkerJob) (active : List Nat) : List WorkerJob :=
  (jobs.filter (fun j => j.status == JobStatus.pending && !(active.contains j.id))).mergeSort
    (fun a b => a.createdAt ≤ b.createdAt)

/-- `pollAndProcessJobs`: at capacity, claim nothing; otherwise take up
to the remaining capacity of pending import jobs, then pending export
jobs with whatever capacity is left, and add every claimed id to the
active set. Returns the new state and the claimed import/export ids. -/
def pollAndProcessJobs (s : WorkerState) :
    WorkerState × List WorkerJob × List WorkerJob :=
  if MAX_CONCURRENT_JOBS ≤ s.activeJobs.length then (s, [], [])
  else
    let availableSlots := MAX_CONCURRENT_JOBS - s.activeJobs.length
    let pendingImports := (pendingSorted s.importJobs s.activeJobs).take availableSlots
    let pendingExports := (pendingSorted s.exportJobs s.activeJobs).take
      (availableSlots - pendingImports.length)
    let active := (pendingImports ++ pendingExports).foldl
      (fun l j => addActive l j.id) s.activeJobs
    ({ s with activeJobs := active }, pendingImports, pendingExports)

/-- Write a status onto an import job row. -/
def setImportStatus (s : WorkerState) (i : Nat) (st : JobStatus) : WorkerState :=
  let jobs := s.importJobs.map (fun j => if j.id == i then { j with status := st } else j)
  { s with importJobs := jobs }

/-- Write a status onto an export job row. -/
def setExportStatus (s : WorkerState) (i : Nat) (st : JobStatus) : WorkerState :=
  let jobs := s.exportJobs.map (fun j => if j.id == i then { j with status := st } else j)
  { s with exportJobs := jobs }

/-- `.finally(() => activeJobs.delete(jobId))`: settling a dispatched
job (success or failure alike) removes its id from the active set. -/
def settleJob (s : WorkerState) (i : Nat) : WorkerState :=
  { s with activeJobs := s.activeJobs.filter (fun x => x ≠ i) }

/-- One observable step of the worker system: a poll cycle, a dispatched
pipeline writing a lifecycle status, a task settling, or the API layer
creating a fresh pending job. -/
inductive WStep : WorkerState → WorkerState → Prop where
  | poll (s : WorkerState) : WStep s (pollAndProcessJobs s).1
  | startImport (s : WorkerState) (i : Nat) (hmem : i ∈ s.activeJobs) :
      WStep s (setImportStatus s i .processing)
  | startExport (s : WorkerState) (i : Nat) (hmem : i ∈ s.activeJobs) :
      WStep s (setExportStatus s i .processing)
  | finishImport (s : WorkerState) (i : Nat) (ok : Bool) (hmem : i ∈ s.activeJobs) :
      WStep s (setImportStatus s i (if ok then .completed else .failed))
  | finishExport (s : WorkerState) (i : Nat) (ok : Bool) (hmem : i ∈ s.activeJobs) :
      WStep s (setExportStatus s i (if ok then .completed else .failed))
  | settle (s : WorkerState) (i : Nat) : WStep s (settleJob s i)
  | createImport (s : WorkerState) (j : WorkerJob) (hp : j.status = .pending) :
      WStep s { s with importJobs := s.importJobs ++ [j] }
  | createExport (s : WorkerState) (j : WorkerJob) (hp : j.status = .pending) :
      WStep s { s with exportJobs := s.exportJobs ++ [j] }

/-- States reachable by the worker system. -/
def ReachableW (s s' : WorkerState) : Prop :=
  Relation.ReflTransGen WStep s s'

/-- The worker's initial state: no active jobs. -/
def initWorker (imports exports : List WorkerJob) : WorkerState :=
  { importJobs := imports, exportJobs := exports, activeJobs := [] }

/-! ## Job status write traces

`processImportJob`/`processExportJob` issue a sequence of
`updateJobStatus` writes; which writes happen depends on which of the
awaited store calls succeed. Each flag is `true` when the corresponding
call succeeds: the initial `processing` update, the pipeline body, the
`completed` update, the post-completion final-stats lookup (`getJob`.
on import only), and the `failed` update in the catch block. A failed call
performs no write and raises. -/

/-- The `status` values written by one run of `processImportJob`. The
final-stats lookup sits inside the try block after the `completed`
write, so its failure reaches the catch and is answered with a `failed`
write. -/
def importStatusWrites (processingOk bodyOk completedOk statsOk failedOk : Bool) :
    List JobStatus :=
  if !processingOk then []
  else
    JobStatus.processing ::
      (if bodyOk then
        (if completedOk then
          JobStatus.completed ::
            (if statsOk then []
             else (if failedOk then [JobStatus.failed] else []))
        else (if failedOk then [JobStatus.failed] else []))
      else (if failedOk then [JobStatus.failed] else []))

/-- The `status` values written by one run of `processExportJob`, which
performs no store call after its `completed` write. -/
def exportStatusWrites (processingOk bodyOk completedOk failedOk : Bool) :
    List JobStatus :=
  if !processingOk then []
  else
    JobStatus.processing ::
      (if bodyOk then
        (if completedOk then [JobStatus.completed]
         else (if failedOk then [JobStatus.failed] else []))
      else (if failedOk then [JobStatus.failed] else []))

/-- The successive status transitions along a trace. -/
def transitionsOf : List JobStatus → List (JobStatus × JobStatus)
  | a :: b :: rest => (a, b) :: transitionsOf (b :: rest)
  | _ => []

/-- The three transitions the specification names. -/
def claimedTransition : JobStatus × JobStatus → Bool
  | (.pending, .processing) => true
  | (.processing, .completed) => true
  | (.processing, .failed) => true
  | _ => false

/-! ## Theorems -/

/-- Did an `Except` computation succeed? -/
def isOkE {ε α : Type} : Except ε α → Bool
  | .ok _ => true
  | .error _ => false

/-- An article input whose only varying part is the slug; the other
required fields are fixed and valid. -/
def mkArticleInput (slug : String) : JVal :=
  .obj [("slug", .str slug), ("title", .str "Title"),
        ("body", .str "Body"), ("author_id", .num 1)]

/-- C4 counterexample: the slug regex is compiled with the `i` flag, so
`"My-Slug"` — which contains uppercase letters — passes article
validation, refuting "for every slug containing a space or an uppercase
letter validation fails". -/
theorem c4_uppercase_slug_accepted :
    ("My-Slug".toList.any Char.isUpper = true) ∧
    isOkE (articleRecordSchema (mkArticleInput "My-Slug")) = true := by
  exact ⟨by decide, rfl⟩

/-- C4 (amended): article validation accepts a slug exactly when it is
case-insensitive kebab-case — nonempty groups of ASCII letters/digits of
either case separated by single hyphens. A slug containing a space is
always rejected, `"my-slug-2"` is accepted, and so is the uppercase
variant `"My-Slug"`. -/
theorem c4_slug_validated_case_insensitive (s : String) :
    isOkE (articleRecordSchema (mkArticleInput s)) = slugRegexTest s ∧
    (' ' ∈ s.toList → slugRegexTest s = false) ∧
    slugRegexTest "my-slug-2" = true ∧ slugRegexTest "My-Slug" = true := by
  refine ⟨?_, ?_, by decide, by decide⟩
  · cases hb : slugRegexTest s with
    | false =>
        simp [articleRecordSchema, mkArticleInput, getField, zBoth, zIdOpt,
          zStringMin, zStringMinOpt, zIdReq, zStringArrayOpt, zStatusOpt,
          zStringOptNullable, isOkE, hb]
        rfl
    | true =>
        simp [articleRecordSchema, mkArticleInput, getField, zBoth, zIdOpt,
          zStringMin, zStringMinOpt, zIdReq, zStringArrayOpt, zStatusOpt,
          zStringOptNullable, isOkE, hb]
        rfl
  · intro hsp
    have hall : (s.toList.all (fun c => c.isAlphanum || c == '-')) = false := by
      cases hA : s.toList.all (fun c => c.isAlphanum || c == '-') with
      | false => rfl
      | true =>
          rw [List.all_eq_true] at hA
          have hsp2 := hA ' ' hsp
          simp at hsp2
    simp only [slugRegexTest, hall, Bool.and_false, Bool.false_and]

/-- Replacing the row `find?` locates with a row that still satisfies
the predicate keeps `find?` succeeding, now at the replacement. -/
theorem find?_map_if {α : Type} (l : List α) (p : α → Bool) (u : α)
    (hu : p u = true) (hl : (l.find? p).isSome = true) :
    (l.map (fun x => if p x then u else x)).find? p = some u := by
  induction l with
  | nil => simp at hl
  | cons x xs ih =>
      cases hx : p x with
      | true =>
          simp only [List.map_cons, hx, if_true]
          exact List.find?_cons_of_pos _ hu
      | false =>
          have hl' : (xs.find? p).isSome = true := by
            rw [List.find?_cons_of_neg _ (by simp [hx])] at hl
            exact hl
          simp only [List.map_cons, hx, if_false]
          rw [List.find?_cons_of_neg _ (by simp [hx])]
          exact ih hl'

/-- A second `upsertUser` with the same record hits the update branch:
the user table keeps its size and the returned row keeps its id. -/
theorem upsertUser_twice (st : Store) (r : UserRecord) :
    (upsertUser (upsertUser st r).1 r).1.users.length =
        (upsertUser st r).1.users.length ∧
      (upsertUser (upsertUser st r).1 r).2.id = (upsertUser st r).2.id := by
  have hfind2 : (upsertUser st r).1.users.find? (fun u => u.email == r.email) =
      some (upsertUser st r).2 := by
    cases hf : st.users.find? (fun u => u.email == r.email) with
    | none =>
        simp only [upsertUser, hf]
        rw [List.find?_append, hf]
        simp [List.find?]
    | some u =>
        have hp := List.find?_some hf
        simp only [upsertUser, hf]
        apply find?_map_if
        · simpa using hp
        · rw [hf]; rfl
  constructor
  · rw [upsertUser]
    simp only [hfind2]
    simp
  · rw [upsertUser]
    simp only [hfind2]

/-- User-reference resolution reads only the users table. -/
theorem resolveUserRef_congr (st st' : Store) (h : st'.users = st.users)
    (f : String) (ref : Option (Int ⊕ String)) :
    resolveUserRef st' f ref = resolveUserRef st f ref := by
  unfold resolveUserRef
  simp only [h]

/-- Article-reference resolution reads only the articles table. -/
theorem resolveArticleRef_congr (st st' : Store) (h : st'.articles = st.articles)
    (f : String) (ref : Option (Int ⊕ String)) :
    resolveArticleRef st' f ref = resolveArticleRef st f ref := by
  unfold resolveArticleRef
  simp only [h]

/-- A second successful `upsertArticle` with the same record hits the
update branch keyed on the slug: the articles table keeps its size and
the returned row keeps its id. -/
theorem upsertArticle_twice (st : Store) (r : ArticleRecord) (st1 : Store)
    (row : StoredArticle) (h : upsertArticle st r = .ok (st1, row)) :
    ∃ st2 row2, upsertArticle st1 r = .ok (st2, row2) ∧
      st2.articles.length = st1.articles.length ∧ row2.id = row.id := by
  unfold upsertArticle at h ⊢
  cases hres : resolveUserRef st "author_id" (jsOrIdRef r.author_id) with
  | error e => simp only [hres] at h; exact absurd h (by simp)
  | ok aid =>
      simp only [hres] at h
      cases hauth : st.users.find? (fun u => (u.id : Int) == aid) with
      | none => simp only [hauth] at h; exact absurd h (by simp)
      | some author =>
          simp only [hauth] at h
          cases hslug : st.articles.find? (fun a => a.slug == r.slug) with
          | some a =>
              simp only [hslug, Except.ok.injEq, Prod.mk.injEq] at h
              obtain ⟨hst1, hrow⟩ := h
              have husers : st1.users = st.users := by rw [← hst1]
              have harts : st1.articles =
                  st.articles.map (fun x => if x.slug == r.slug then row else x) := by
                rw [← hst1, ← hrow]
              have hfind2 : st1.articles.find? (fun a => a.slug == r.slug) = some row := by
                rw [harts]
                apply find?_map_if
                · have hp := List.find?_some hslug
                  have hs : row.slug = a.slug := by rw [← hrow]
                  simpa [hs] using hp
                · rw [hslug]; rfl
              simp only [resolveUserRef_congr st st1 husers, hres, husers,
                hauth, hfind2]
              refine ⟨_, _, rfl, ?_, ?_⟩
              · simp
              · rfl
          | none =>
              simp only [hslug, Except.ok.injEq, Prod.mk.injEq] at h
              obtain ⟨hst1, hrow⟩ := h
              have husers : st1.users = st.users := by rw [← hst1]
              have harts : st1.articles = st.articles ++ [row] := by
                rw [← hst1, ← hrow]
              have hfind2 : st1.articles.find? (fun a => a.slug == r.slug) = some row := by
                rw [harts, List.find?_append, hslug]
                have hs : row.slug = r.slug := by rw [← hrow]
                simp [List.find?, hs]
              simp only [resolveUserRef_congr st st1 husers, hres, husers,
                hauth, hfind2]
              refine ⟨_, _, rfl, ?_, ?_⟩
              · simp
              · rfl

/-- Two successful `upsertComment` calls with the same input: the second
also succeeds, inserts one more row, and yields a fresh id — comments
are plain inserts, never keyed updates. -/
theorem upsertComment_twice (st : Store) (r : CommentRecord) (st1 : Store)
    (c1 : StoredComment) (h : upsertComment st r = .ok (st1, c1)) :
    ∃ st2 c2, upsertComment st1 r = .ok (st2, c2) ∧
      st2.comments.length = st1.comments.length + 1 ∧ c2.id ≠ c1.id := by
  unfold upsertComment at h ⊢
  cases hres : resolveArticleRef st "article_id" (some r.article_id) with
  | error e => simp only [hres] at h; exact absurd h (by simp)
  | ok aid =>
      simp only [hres] at h
      cases hres2 : resolveUserRef st "user_id" (some r.user_id) with
      | error e => simp only [hres2] at h; exact absurd h (by simp)
      | ok uid =>
          simp only [hres2] at h
          cases hart : st.articles.find? (fun a => (a.id : Int) == aid) with
          | none => simp only [hart] at h; exact absurd h (by simp)
          | some article =>
              simp only [hart] at h
              cases hauth : st.users.find? (fun u => (u.id : Int) == uid) with
              | none => simp only [hauth] at h; exact absurd h (by simp)
              | some author =>
                  simp only [hauth, Except.ok.injEq, Prod.mk.injEq] at h
                  obtain ⟨hst1, hc1⟩ := h
                  have husers : st1.users = st.users := by rw [← hst1]
                  have harts : st1.articles = st.articles := by rw [← hst1]
                  have hcoms : st1.comments = st.comments ++ [c1] := by
                    rw [← hst1, ← hc1]
                  have hnext : st1.nextCommentId = st.nextCommentId + 1 := by
                    rw [← hst1]
                  simp only [resolveArticleRef_congr st st1 harts, hres,
                    resolveUserRef_congr st st1 husers, hres2, harts, hart,
                    husers, hauth]
                  refine ⟨_, _, rfl, ?_, ?_⟩
                  · simp [hcoms]
                  · simp only [hnext, ← hc1]
                    omega

/-- C10: upsert idempotence is asymmetric across resources. `upsertUser`
and `upsertArticle` are keyed on the unique email and slug, so a second
call with the same record updates in place (same table size, same row
id); `upsertComment` is a plain insert, so a second successful call with
identical input adds one more row with a distinct id. -/
theorem c10_upsert_identity_asymmetry :
    (∀ (st : Store) (r : UserRecord),
        (upsertUser (upsertUser st r).1 r).1.users.length =
            (upsertUser st r).1.users.length ∧
          (upsertUser (upsertUser st r).1 r).2.id = (upsertUser st r).2.id) ∧
    (∀ (st : Store) (r : ArticleRecord) (st1 : Store) (row : StoredArticle),
        upsertArticle st r = .ok (st1, row) →
        ∃ st2 row2, upsertArticle st1 r = .ok (st2, row2) ∧
          st2.articles.length = st1.articles.length ∧ row2.id = row.id) ∧
    (∀ (st : Store) (r : CommentRecord) (st1 : Store) (c1 : StoredComment),
        upsertComment st r = .ok (st1, c1) →
        ∃ st2 c2, upsertComment st1 r = .ok (st2, c2) ∧
          st2.comments.length = st1.comments.length + 1 ∧ c2.id ≠ c1.id) :=
  ⟨upsertUser_twice, upsertArticle_twice, upsertComment_twice⟩

/-- A small concrete store: one user (id 1), one article (id 1, slug
`s`), no comments. -/
def c10Store : Store :=
  { users := [{ id := 1, email := "a@b.com", username := "a", password := "p",
                role := "reader", active := true, externalId := none }],
    articles := [{ id := 1, slug := "s", title := "T0", description := "D0",
                   body := "B0", externalId := none, authorId := 1 }],
    comments := [], nextUserId := 2, nextArticleId := 2, nextCommentId := 1 }

/-- A validated user record with the store's email. -/
def c10UserRec : UserRecord :=
  { id := .inl 7, email := "a@b.com", name := "A", role := none,
    active := true, created_at := none, updated_at := none }

/-- A validated article record referencing author 1. -/
def c10ArticleRec : ArticleRecord :=
  { id := none, slug := "s2", title := "T", description := none, body := "B",
    author_id := some (.inl 1), tags := none, status := none,
    published_at := none }

/-- The article row the first `upsertArticle` creates. -/
def c10ArtRow1 : StoredArticle :=
  { id := 2, slug := "s2", title := "T", description := "T", body := "B",
    externalId := none, authorId := 1 }

/-- The store after the first `upsertArticle`. -/
def c10ArtStore1 : Store :=
  { c10Store with articles := c10Store.articles ++ [c10ArtRow1],
                  nextArticleId := 3 }

/-- A validated comment record referencing article 1 and user 1. -/
def c10CommentRec : CommentRecord :=
  { id := none, article_id := .inl 1, user_id := .inl 1, body := "hi",
    created_at := none }

/-- The comment row the first `upsertComment` creates. -/
def c10ComRow1 : StoredComment :=
  { id := 1, body := "hi", articleId := 1, authorId := 1 }

/-- The store after the first `upsertComment`. -/
def c10ComStore1 : Store :=
  { c10Store with comments := [c10ComRow1], nextCommentId := 2 }

/-- C10 witness: the theorem applied at the concrete store and records,
with both success hypotheses discharged by evaluation. -/
theorem c10_upsert_identity_asymmetry_witness :
    ((upsertUser (upsertUser c10Store c10UserRec).1 c10UserRec).1.users.length =
        (upsertUser c10Store c10UserRec).1.users.length) ∧
    (∃ st2 row2, upsertArticle c10ArtStore1 c10ArticleRec = .ok (st2, row2) ∧
        st2.articles.length = c10ArtStore1.articles.length ∧
        row2.id = c10ArtRow1.id) ∧
    (∃ st2 c2, upsertComment c10ComStore1 c10CommentRec = .ok (st2, c2) ∧
        st2.comments.length = c10ComStore1.comments.length + 1 ∧
        c2.id ≠ c10ComRow1.id) :=
  ⟨(c10_upsert_identity_asymmetry.1 c10Store c10UserRec).1,
   c10_upsert_identity_asymmetry.2.1 c10Store c10ArticleRec c10ArtStore1
     c10ArtRow1 (by rfl),
   c10_upsert_identity_asymmetry.2.2 c10Store c10CommentRec c10ComStore1
     c10ComRow1 (by rfl)⟩

/-- C4 witness: the amended theorem applied at `"my-slug-2"` and at
`"My Slug"`, whose space hypothesis is discharged by evaluation. -/
theorem c4_slug_validated_case_insensitive_witness :
    isOkE (articleRecordSchema (mkArticleInput "my-slug-2")) =
        slugRegexTest "my-slug-2" ∧
      slugRegexTest "My Slug" = false :=
  ⟨(c4_slug_validated_case_insensitive "my-slug-2").1,
   (c4_slug_validated_case_insensitive "My Slug").2.1 (by decide)⟩

/-- Counting invariant of the batch loop: every item lands in exactly
one of the two counters, and every failure appends exactly one error
row. -/
theorem processBatchLoop_counts (upsert : Store → ImportRecord → Except PipeErr Store)
    (jobId : Nat) :
    ∀ (batch : List (ImportRecord × Nat)) (s e : Nat) (st : Store)
      (errs : List ImportErrorRow),
      (processBatchLoop upsert jobId batch s e st errs).1 +
          (processBatchLoop upsert jobId batch s e st errs).2.1 =
        s + e + batch.length ∧
      (processBatchLoop upsert jobId batch s e st errs).2.2.2.length + e =
        errs.length + (processBatchLoop upsert jobId batch s e st errs).2.1 := by
  intro batch
  induction batch with
  | nil => intro s e st errs; simp [processBatchLoop]
  | cons item rest ih =>
      intro s e st errs
      cases hu : upsert st item.1 with
      | ok st' =>
          have := ih (s + 1) e st' errs
          simp only [processBatchLoop, hu, List.length_cons]
          omega
      | error er =>
          have := ih s (e + 1) st
            (errs ++ [recordError jobId item.2 (.record item.1) er])
          simp only [processBatchLoop, hu, List.length_cons]
          simp only [List.length_append, List.length_cons, List.length_nil] at this
          omega

/-- `processBatch` totals: `success + error` always equals the batch
size, each failure is recorded as one ImportError row, and the job
counters are updated by increment. -/
theorem processBatch_spec (upsert : Store → ImportRecord → Except PipeErr Store)
    (jobId : Nat) (batch : List (ImportRecord × Nat)) (job : JobRow)
    (store : Store) (errors : List ImportErrorRow) :
    (processBatch upsert jobId batch job store errors).success +
        (processBatch upsert jobId batch job store errors).error = batch.length ∧
      (processBatch upsert jobId batch job store errors).errors.length =
        errors.length + (processBatch upsert jobId batch job store errors).error ∧
      (processBatch upsert jobId batch job store errors).job.successCount =
        job.successCount + ((processBatch upsert jobId batch job store errors).success : Int) ∧
      (processBatch upsert jobId batch job store errors).job.errorCount =
        job.errorCount + ((processBatch upsert jobId batch job store errors).error : Int) ∧
      (processBatch upsert jobId batch job store errors).job.totalRecords =
        job.totalRecords ∧
      (processBatch upsert jobId batch job store errors).job.status = job.status := by
  have h := processBatchLoop_counts upsert jobId batch 0 0 store errors
  simp only [processBatch]
  exact ⟨by omega, by omega, trivial, trivial, trivial, trivial⟩

/-- When no upsert fails, the batch loop succeeds on every item,
touching neither the error counter nor the error table. -/
theorem processBatchLoop_allOk (upsert : Store → ImportRecord → Except PipeErr Store)
    (h : ∀ st r, ∃ st', upsert st r = .ok st') (jobId : Nat) :
    ∀ (batch : List (ImportRecord × Nat)) (s e : Nat) (st : Store)
      (errs : List ImportErrorRow),
      ∃ st', processBatchLoop upsert jobId batch s e st errs =
        (s + batch.length, e, st', errs) := by
  intro batch
  induction batch with
  | nil => intro s e st errs; exact ⟨st, by simp [processBatchLoop]⟩
  | cons item rest ih =>
      intro s e st errs
      obtain ⟨st1, hst1⟩ := h st item.1
      obtain ⟨st', hst'⟩ := ih (s + 1) e st1 errs
      refine ⟨st', ?_⟩
      simp only [processBatchLoop, hst1, hst', List.length_cons]
      have harith : s + 1 + rest.length = s + (rest.length + 1) := by omega
      rw [harith]

/-- The batch store and job for the C2 scenario: one stored user (id 1)
and one stored article (id 1, external identifier `art-0001`). -/
def c2Store : Store :=
  { users := [{ id := 1, email := "a@b.com", username := "a", password := "p",
                role := "reader", active := true, externalId := none }],
    articles := [{ id := 1, slug := "s", title := "T", description := "D",
                   body := "B", externalId := some "art-0001", authorId := 1 }],
    comments := [], nextUserId := 2, nextArticleId := 2, nextCommentId := 1 }

/-- A job row mid-processing with zeroed counters. -/
def c2Job : JobRow :=
  { status := .processing, totalRecords := 10, successCount := 0,
    errorCount := 0, startedAtSet := true, completedAtSet := false }

/-- A validated comment referencing article 1 by integer id. -/
def c2GoodComment (_k : Nat) : CommentRecord :=
  { id := none, article_id := .inl 1, user_id := .inl 1, body := "ok",
    created_at := none }

/-- The comment whose `article_id` names an external identifier no
article row carries. -/
def c2BadComment : CommentRecord :=
  { id := none, article_id := .inr "bad-ref", user_id := .inl 1,
    body := "bad", created_at := none }

/-- A ten-record comment batch: nine resolvable, one unresolvable at
stream position 3. -/
def c2Batch : List (ImportRecord × Nat) :=
  [(.comment (c2GoodComment 0), 0), (.comment (c2GoodComment 1), 1),
   (.comment (c2GoodComment 2), 2), (.comment c2BadComment, 3),
   (.comment (c2GoodComment 4), 4), (.comment (c2GoodComment 5), 5),
   (.comment (c2GoodComment 6), 6), (.comment (c2GoodComment 7), 7),
   (.comment (c2GoodComment 8), 8), (.comment (c2GoodComment 9), 9)]

/-- C2: per-record upsert failures are isolated. In general,
`processBatch` never aborts: every item lands in `success` or `error`
(their sum is the batch size), each failure appends exactly one
ImportError row, and the job counters move by increment. On the concrete
ten-comment batch with one unresolvable `article_id`, the result is
`success = 9`, `error = 1`, one recorded ImportError (a foreign-key
failure at record index 3), and the nine valid comments persisted. -/
theorem c2_batch_failure_isolation :
    (∀ (upsert : Store → ImportRecord → Except PipeErr Store) (jobId : Nat)
        (batch : List (ImportRecord × Nat)) (job : JobRow) (store : Store)
        (errors : List ImportErrorRow),
      (processBatch upsert jobId batch job store errors).success +
          (processBatch upsert jobId batch job store errors).error = batch.length ∧
        (processBatch upsert jobId batch job store errors).errors.length =
          errors.length + (processBatch upsert jobId batch job store errors).error ∧
        (processBatch upsert jobId batch job store errors).job.successCount =
          job.successCount +
            ((processBatch upsert jobId batch job store errors).success : Int) ∧
        (processBatch upsert jobId batch job store errors).job.errorCount =
          job.errorCount +
            ((processBatch upsert jobId batch job store errors).error : Int)) ∧
    (processBatch (upsertRecord .comments) 1 c2Batch c2Job c2Store []).success = 9 ∧
    (processBatch (upsertRecord .comments) 1 c2Batch c2Job c2Store []).error = 1 ∧
    (processBatch (upsertRecord .comments) 1 c2Batch c2Job c2Store []).errors.map
        (fun er => (er.recordIndex, er.errorType)) = [(3, "Error")] ∧
    (processBatch (upsertRecord .comments) 1 c2Batch c2Job c2Store []).store.comments.length = 9 ∧
    (processBatch (upsertRecord .comments) 1 c2Batch c2Job c2Store []).job.successCount = 9 ∧
    (processBatch (upsertRecord .comments) 1 c2Batch c2Job c2Store []).job.errorCount = 1 := by
  refine ⟨?_, by decide, by decide, by decide, by decide, by decide, by decide⟩
  intro upsert jobId batch job store errors
  have h := processBatch_spec upsert jobId batch job store errors
  exact ⟨h.1, h.2.1, h.2.2.1, h.2.2.2.1⟩

/-- Inverting the issue-collecting conjunction. -/
theorem zBoth_ok {α β : Type} (a : Except (List (String × String)) α)
    (b : Except (List (String × String)) β) (p : α × β)
    (h : zBoth a b = .ok p) : a = .ok p.1 ∧ b = .ok p.2 := by
  cases p
  cases a <;> cases b <;> simp_all [zBoth]

/-- A record that passes `userRecordSchema` carries a valid email. -/
theorem userRecordSchema_email (v : JVal) (r : UserRecord)
    (hv : userRecordSchema v = .ok r) : isValidEmail r.email = true := by
  cases v with
  | obj fs =>
      simp only [userRecordSchema] at hv
      cases hz : zBoth (zIdReq fs "id")
        (zBoth
          (match getField fs "email" with
            | some (.str s) =>
                if isValidEmail s then Except.ok s
                else Except.error [("email", "Invalid email format")]
            | some _ => Except.error [("email", "Expected string")]
            | none => Except.error [("email", "Required")])
          (zBoth (zStringMin fs "name" 1)
            (zBoth (zStringOpt fs "role")
              (zBoth (zBoolDefaultTrue fs "active")
                (zBoth (zStringOpt fs "created_at") (zStringOpt fs "updated_at")))))) with
      | error issues => simp only [hz] at hv; exact absurd hv (by simp)
      | ok tup =>
          obtain ⟨tid, temail, tname, trole, tactive, tca, tua⟩ := tup
          obtain ⟨h1, h2⟩ := zBoth_ok _ _ _ hz
          obtain ⟨hemail, _⟩ := zBoth_ok _ _ _ h2
          simp only [hz, Except.ok.injEq] at hv
          have hre : r.email = temail := by rw [← hv]
          rw [hre]
          simp only at hemail
          cases hg : getField fs "email" with
          | none => simp only [hg] at hemail; exact absurd hemail (by simp)
          | some jv =>
              cases jv with
              | str s =>
                  simp only [hg] at hemail
                  by_cases hval : isValidEmail s = true
                  · simp only [hval, if_true, Except.ok.injEq] at hemail
                    rw [← hemail]
                    exact hval
                  · simp only [Bool.not_eq_true] at hval
                    simp [hval] at hemail
              | null => simp only [hg] at hemail; exact absurd hemail (by simp)
              | bool b => simp only [hg] at hemail; exact absurd hemail (by simp)
              | num n => simp only [hg] at hemail; exact absurd hemail (by simp)
              | arr xs => simp only [hg] at hemail; exact absurd hemail (by simp)
              | obj fs2 => simp only [hg] at hemail; exact absurd hemail (by simp)
  | null => exact absurd hv (by simp [userRecordSchema])
  | bool b => exact absurd hv (by simp [userRecordSchema])
  | num n => exact absurd hv (by simp [userRecordSchema])
  | str s => exact absurd hv (by simp [userRecordSchema])
  | arr xs => exact absurd hv (by simp [userRecordSchema])

/-- A valid email has a nonempty local part, so the username derived by
`upsertUser` is never empty. -/
theorem emailLocalPart_ne_empty (e : String) (h : isValidEmail e = true) :
    (emailLocalPart e).toList ≠ [] := by
  unfold isValidEmail at h
  simp only [Bool.and_eq_true] at h
  intro hc
  have hlp : (e.toList.takeWhile (fun c => c != '@')) = [] := hc
  have h2 := h.1.1.1.2
  rw [hlp] at h2
  simp at h2

/-- The row `upsertUser` returns: its email is the record's, and the
derived username, role, active flag and external identifier are the
same in the update and create branches. -/
theorem upsertUser_row (st : Store) (r : UserRecord) :
    (upsertUser st r).2.email = r.email ∧
    (upsertUser st r).2.username =
      jsOrStr (some (stripWhitespace (toLowerStr r.name))) (emailLocalPart r.email) ∧
    (upsertUser st r).2.role = jsOrStr r.role "reader" ∧
    (upsertUser st r).2.active = r.active ∧
    (upsertUser st r).2.externalId =
      (match r.id with
        | .inr s => if s.toList.contains '-' then some s else none
        | .inl _ => none) := by
  cases hf : st.users.find? (fun u => u.email == r.email) with
  | none => simp [upsertUser, hf]
  | some u =>
      have hu := List.find?_some hf
      have hue : u.email = r.email := by simpa using hu
      simp [upsertUser, hf, hue]

/-- After any `upsertUser`, a row with the record's email is found, and
it is the returned row. -/
theorem upsertUser_find (st : Store) (r : UserRecord) :
    (upsertUser st r).1.users.find? (fun u => u.email == r.email) =
      some (upsertUser st r).2 := by
  cases hf : st.users.find? (fun u => u.email == r.email) with
  | none =>
      simp only [upsertUser, hf]
      rw [List.find?_append, hf]
      simp [List.find?]
  | some u =>
      have hp := List.find?_some hf
      simp only [upsertUser, hf]
      exact find?_map_if _ _ _ (by simpa using hp) (by rw [hf]; rfl)

/-- A second `upsertUser` whose record carries the same email lands on
the row the first call produced: same table size, same row id, and the
external identifier recomputed from the new record's id. -/
theorem upsertUser_second (st : Store) (r r' : UserRecord)
    (he : r'.email = r.email) :
    (upsertUser (upsertUser st r).1 r').1.users.length =
        (upsertUser st r).1.users.length ∧
      (upsertUser (upsertUser st r).1 r').2.id = (upsertUser st r).2.id ∧
      (upsertUser (upsertUser st r).1 r').2.externalId =
        (match r'.id with
          | .inr s => if s.toList.contains '-' then some s else none
          | .inl _ => none) := by
  have hfind := upsertUser_find st r
  rw [upsertUser]
  simp only [he, hfind]
  refine ⟨by simp, ?_, ?_⟩ <;> trivial

/-- C5: external-identifier round-trip for users. Importing a record
whose id is an opaque string containing `-` stores it as `externalId`;
the export formatter emits that same identifier as the record's `id`
(preferring it over the integer id); and re-importing the exported
record validates and upserts by email onto the same stored row — same
row id, no new row, external identifier preserved. -/
theorem c5_external_id_roundtrip (st : Store) (v : JVal) (r : UserRecord)
    (ext : String) (hv : userRecordSchema v = Except.ok r)
    (hid : r.id = Sum.inr ext) (hdash : ext.toList.contains '-' = true) :
    (upsertUser st r).2.externalId = some ext ∧
    getFieldOpt (formatUserRecord (userRowOf (upsertUser st r).2) none) "id" =
      some (some (.str ext)) ∧
    ∃ r', userRecordSchema
        (stringifyRecord (formatUserRecord (userRowOf (upsertUser st r).2) none)) =
          Except.ok r' ∧
      r'.email = r.email ∧
      (upsertUser (upsertUser st r).1 r').1.users.length =
        (upsertUser st r).1.users.length ∧
      (upsertUser (upsertUser st r).1 r').2.id = (upsertUser st r).2.id ∧
      (upsertUser (upsertUser st r).1 r').2.externalId = some ext := by
  have hrow := upsertUser_row st r
  have hemail : isValidEmail r.email = true := userRecordSchema_email v r hv
  have hextlist : ext.toList ≠ [] := by
    intro h0
    rw [h0] at hdash
    simp at hdash
  have hextempty : ext.toList.isEmpty = false := by
    cases hx : ext.toList.isEmpty
    · rfl
    · exact absurd (List.isEmpty_iff.mp hx) hextlist
  have hdmem : '-' ∈ ext.data := by simpa using hdash
  have hdatane : ¬ext.data = [] := hextlist
  have hext : (upsertUser st r).2.externalId = some ext := by
    rw [hrow.2.2.2.2, hid]
    simp [hdmem]
  have huname : 1 ≤ (upsertUser st r).2.username.length := by
    rw [hrow.2.1]
    unfold jsOrStr
    cases hb : (stripWhitespace (toLowerStr r.name)).toList.isEmpty with
    | true =>
        simp only [hb, if_true]
        have hne := emailLocalPart_ne_empty r.email hemail
        have : 0 < (emailLocalPart r.email).toList.length :=
          List.length_pos.mpr hne
        exact this
    | false =>
        simp only [hb, if_false]
        have hne : (stripWhitespace (toLowerStr r.name)).toList ≠ [] := by
          intro h0
          rw [h0] at hb
          simp at hb
        exact List.length_pos.mpr hne
  have hobj : stringifyRecord (formatUserRecord (userRowOf (upsertUser st r).2) none) =
      .obj [("id", .str ext), ("email", .str r.email),
            ("name", .str (upsertUser st r).2.username),
            ("role", .str (jsOrStr (some (upsertUser st r).2.role) "user")),
            ("active", .bool (upsertUser st r).2.active)] := by
    simp [stringifyRecord, formatUserRecord, formatUserFull, userRowOf,
      jsOrVal, hext, hextempty, hdatane, hrow.1]
  refine ⟨hext, ?_, ?_⟩
  · simp [formatUserRecord, formatUserFull, userRowOf, getFieldOpt,
      jsOrVal, hext, hextempty, hdatane, List.find?]
  · refine ⟨⟨Sum.inr ext, r.email, (upsertUser st r).2.username,
      some (jsOrStr (some (upsertUser st r).2.role) "user"),
      (upsertUser st r).2.active, none, none⟩, ?_, rfl, ?_, ?_, ?_⟩
    · rw [hobj]
      simp [userRecordSchema, getField, zIdReq, zStringMin, zStringOpt,
        zBoolDefaultTrue, zBoth, List.find?, hemail, huname]
    · exact (upsertUser_second st r ⟨Sum.inr ext, r.email,
        (upsertUser st r).2.username,
        some (jsOrStr (some (upsertUser st r).2.role) "user"),
        (upsertUser st r).2.active, none, none⟩ rfl).1
    · exact (upsertUser_second st r ⟨Sum.inr ext, r.email,
        (upsertUser st r).2.username,
        some (jsOrStr (some (upsertUser st r).2.role) "user"),
        (upsertUser st r).2.active, none, none⟩ rfl).2.1
    · have h3 := (upsertUser_second st r
        ⟨Sum.inr ext, r.email, (upsertUser st r).2.username,
          some (jsOrStr (some (upsertUser st r).2.role) "user"),
          (upsertUser st r).2.active, none, none⟩ rfl).2.2
      rw [h3]
      simp [hdmem]

/-- An empty store. -/
def emptyStore : Store :=
  { users := [], articles := [], comments := [], nextUserId := 1,
    nextArticleId := 1, nextCommentId := 1 }

/-- A raw user input carrying the opaque external identifier `u-1`. -/
def c5Input : JVal :=
  .obj [("id", .str "u-1"), ("email", .str "a@b.com"), ("name", .str "Ann")]

/-- The validated form of `c5Input`. -/
def c5Rec : UserRecord :=
  { id := .inr "u-1", email := "a@b.com", name := "Ann", role := none,
    active := true, created_at := none, updated_at := none }

/-- C5 witness: the round-trip theorem applied to a concrete import of
`u-1` into an empty store, every hypothesis discharged by evaluation. -/
theorem c5_external_id_roundtrip_witness :
    (upsertUser emptyStore c5Rec).2.externalId = some "u-1" ∧
    getFieldOpt (formatUserRecord (userRowOf (upsertUser emptyStore c5Rec).2) none) "id" =
      some (some (.str "u-1")) ∧
    ∃ r', userRecordSchema
        (stringifyRecord (formatUserRecord (userRowOf (upsertUser emptyStore c5Rec).2) none)) =
          Except.ok r' ∧
      r'.email = c5Rec.email ∧
      (upsertUser (upsertUser emptyStore c5Rec).1 r').1.users.length =
        (upsertUser emptyStore c5Rec).1.users.length ∧
      (upsertUser (upsertUser emptyStore c5Rec).1 r').2.id =
        (upsertUser emptyStore c5Rec).2.id ∧
      (upsertUser (upsertUser emptyStore c5Rec).1 r').2.externalId = some "u-1" :=
  c5_external_id_roundtrip emptyStore c5Input c5Rec "u-1" (by rfl) (by rfl)
    (by rfl)

/-- Is the key defined (present with a non-`undefined` value) on a
formatted record? This is the test the field filter applies. -/
def definedIn (formatted : List (String × Option JVal)) (f : String) : Bool :=
  match getFieldOpt formatted f with
  | some (some _) => true
  | _ => false

/-- Folding the field filter over a duplicate-free field list whose
names are disjoint from the accumulator's keys appends exactly the
defined fields, in order. -/
theorem filterFields_keys_aux (formatted : List (String × Option JVal)) :
    ∀ (fields : List String) (acc : List (String × Option JVal)),
      fields.Nodup →
      (∀ f ∈ fields, (acc.any (fun p => p.1 == f)) = false) →
      (fields.foldl
        (fun acc f =>
          match getFieldOpt formatted f with
          | some (some v) => setFieldOpt acc f (some v)
          | _ => acc) acc).map Prod.fst =
        acc.map Prod.fst ++ fields.filter (definedIn formatted) := by
  intro fields
  induction fields with
  | nil => intro acc _ _; simp
  | cons f fs ih =>
      intro acc hnd hdisj
      have hnd' : fs.Nodup := hnd.of_cons
      have hfnotin : f ∉ fs := by
        have := List.nodup_cons.mp hnd
        exact this.1
      simp only [List.foldl_cons, List.filter_cons]
      cases hdef : getFieldOpt formatted f with
      | none =>
          have hdf : definedIn formatted f = false := by
            simp [definedIn, hdef]
          simp only [hdef, hdf]
          rw [ih acc hnd' (fun g hg => hdisj g (by simp [hg]))]
          simp
      | some ov =>
          cases ov with
          | none =>
              have hdf : definedIn formatted f = false := by
                simp [definedIn, hdef]
              simp only [hdef, hdf]
              rw [ih acc hnd' (fun g hg => hdisj g (by simp [hg]))]
              simp
          | some v =>
              have hdf : definedIn formatted f = true := by
                simp [definedIn, hdef]
              have hnot : (acc.any (fun p => p.1 == f)) = false :=
                hdisj f (by simp)
              have hset : setFieldOpt acc f (some v) = acc ++ [(f, some v)] := by
                simp [setFieldOpt, hnot]
              have hdisj' : ∀ g ∈ fs,
                  ((acc ++ [(f, some v)]).any (fun p => p.1 == g)) = false := by
                intro g hg
                rw [List.any_append]
                have h1 : (acc.any (fun p => p.1 == g)) = false :=
                  hdisj g (by simp [hg])
                have h2 : f ≠ g := by
                  intro hfg
                  exact hfnotin (hfg ▸ hg)
                simp [h1, h2]
              simp only [hdef, hset, hdf]
              rw [ih (acc ++ [(f, some v)]) hnd' hdisj']
              simp

/-- An article row with no external identifiers and no tags. -/
def c6Article : ArticleRow :=
  { id := 1, externalId := none, slug := "s", title := "T", body := "B",
    authorId := 1, author := none, tagList := none, status := none,
    publishedAt := none, createdAt := none }

/-- A user row with store-managed timestamps absent. -/
def c6User : UserRow :=
  { id := 1, externalId := none, email := "a@b.com", username := "a",
    role := some "reader", active := some true, createdAt := none,
    updatedAt := none }

/-- C6 counterexample: a caller-supplied field list may name a field the
formatted record does not define; the filter drops it, so the output
keys are `["id"]`, not the requested `["id", "bogus"]` — refuting "each
formatted output record contains exactly the keys in that list". -/
theorem c6_unknown_field_dropped :
    (formatArticleRecord c6Article (some ["id", "bogus"])).map Prod.fst = ["id"] ∧
    (["id"] : List String) ≠ ["id", "bogus"] :=
  ⟨rfl, by decide⟩

/-- C6 (amended): with a caller-supplied, duplicate-free field list, the
formatted output's keys are exactly those fields of the list that are
defined on the record's full export shape, in list order; fields that
are undefined there (unknown names, or a user's absent timestamp
columns) are dropped. In particular `["id", "slug"]` — both always
defined on articles — yields exactly those two keys. -/
theorem c6_field_selection (a : ArticleRow) (u : UserRow) (fs : List String)
    (h : fs.Nodup) :
    (formatArticleRecord a (some fs)).map Prod.fst =
        fs.filter (definedIn (formatArticleFull a)) ∧
      (formatUserRecord u (some fs)).map Prod.fst =
        fs.filter (definedIn (formatUserFull u)) ∧
      (formatArticleRecord a (some ["id", "slug"])).map Prod.fst = ["id", "slug"] := by
  refine ⟨?_, ?_, rfl⟩
  · have := filterFields_keys_aux (formatArticleFull a) fs [] h (by simp)
    simpa [formatArticleRecord, filterFields] using this
  · have := filterFields_keys_aux (formatUserFull u) fs [] h (by simp)
    simpa [formatUserRecord, filterFields] using this

/-- C6 witness: the amended theorem applied to the concrete rows with
the field list `["id", "bogus"]`, the duplicate-freeness hypothesis
discharged by evaluation. -/
theorem c6_field_selection_witness :
    (formatArticleRecord c6Article (some ["id", "bogus"])).map Prod.fst =
        ["id", "bogus"].filter (definedIn (formatArticleFull c6Article)) ∧
      (formatUserRecord c6User (some ["id", "bogus"])).map Prod.fst =
        ["id", "bogus"].filter (definedIn (formatUserFull c6User)) ∧
      (formatArticleRecord c6Article (some ["id", "slug"])).map Prod.fst =
        ["id", "slug"] :=
  c6_field_selection c6Article c6User ["id", "bogus"] (by decide)

/-! ### C9: lifecycle monotonicity -/

/-- C9 counterexample: when the `processing`, body, and `completed`
store calls succeed but the post-completion final-stats lookup fails,
`processImportJob`'s catch writes `failed` over `completed` — a
transition the claim forbids. -/
theorem c9_completed_then_failed :
    transitionsOf (JobStatus.pending :: importStatusWrites true true true false true) =
      [(.pending, .processing), (.processing, .completed), (.completed, .failed)] ∧
    claimedTransition (.completed, .failed) = false :=
  ⟨rfl, rfl⟩

/-- C9 (amended): over every combination of store-call outcomes, the
status transitions of an import or export run are among
`pending → processing`, `processing → completed`, `processing → failed`,
plus the single extra import transition `completed → failed`, which
occurs exactly when the job completed, the final-stats lookup then
failed, and the catch's `failed` write succeeded. No write ever returns
a job to `pending`, and export runs use only the three claimed
transitions. -/
theorem c9_status_monotonic_except_stats_failure (p b c s f : Bool) :
    ((transitionsOf (JobStatus.pending :: importStatusWrites p b c s f)).all
      (fun t => claimedTransition t ||
        (t == (JobStatus.completed, JobStatus.failed))) = true) ∧
    (((JobStatus.completed, JobStatus.failed) ∈
        transitionsOf (JobStatus.pending :: importStatusWrites p b c s f)) ↔
      (p = true ∧ b = true ∧ c = true ∧ s = false ∧ f = true)) ∧
    ((transitionsOf (JobStatus.pending :: exportStatusWrites p b c f)).all
      claimedTransition = true) ∧
    JobStatus.pending ∉ importStatusWrites p b c s f ∧
    JobStatus.pending ∉ exportStatusWrites p b c f := by
  revert p b c s f
  decide

/-! ### C7: the worker's concurrency cap -/

/-- Inserting ids one at a time grows the active set by at most one
each. -/
theorem foldl_addActive_length (js : List WorkerJob) :
    ∀ l : List Nat,
      (js.foldl (fun l j => addActive l j.id) l).length ≤ l.length + js.length := by
  induction js with
  | nil => intro l; simp
  | cons j rest ih =>
      intro l
      have hstep : (addActive l j.id).length ≤ l.length + 1 := by
        unfold addActive
        by_cases hm : j.id ∈ l
        · simp [hm]
        · simp [hm]
      have := ih (addActive l j.id)
      simp only [List.foldl_cons, List.length_cons]
      omega

/-- One poll cycle keeps the active set within the cap. -/
theorem pollAndProcessJobs_active_le (s : WorkerState)
    (h : s.activeJobs.length ≤ MAX_CONCURRENT_JOBS) :
    (pollAndProcessJobs s).1.activeJobs.length ≤ MAX_CONCURRENT_JOBS := by
  unfold pollAndProcessJobs
  by_cases hc : MAX_CONCURRENT_JOBS ≤ s.activeJobs.length
  · simp [hc, h]
  · simp only [hc, if_false]
    have hfold := foldl_addActive_length
      ((pendingSorted s.importJobs s.activeJobs).take
          (MAX_CONCURRENT_JOBS - s.activeJobs.length) ++
        (pendingSorted s.exportJobs s.activeJobs).take
          ((MAX_CONCURRENT_JOBS - s.activeJobs.length) -
            ((pendingSorted s.importJobs s.activeJobs).take
              (MAX_CONCURRENT_JOBS - s.activeJobs.length)).length))
      s.activeJobs
    have h1 : ((pendingSorted s.importJobs s.activeJobs).take
        (MAX_CONCURRENT_JOBS - s.activeJobs.length)).length ≤
          MAX_CONCURRENT_JOBS - s.activeJobs.length := by
      exact List.length_take_le _ _
    have h2 : ((pendingSorted s.exportJobs s.activeJobs).take
        ((MAX_CONCURRENT_JOBS - s.activeJobs.length) -
          ((pendingSorted s.importJobs s.activeJobs).take
            (MAX_CONCURRENT_JOBS - s.activeJobs.length)).length)).length ≤
          (MAX_CONCURRENT_JOBS - s.activeJobs.length) -
            ((pendingSorted s.importJobs s.activeJobs).take
              (MAX_CONCURRENT_JOBS - s.activeJobs.length)).length := by
      exact List.length_take_le _ _
    simp only [List.length_append] at hfold
    omega

/-- Every worker step preserves the concurrency cap on the active set. -/
theorem wstep_active_le (s s' : WorkerState) (h : WStep s s')
    (hlen : s.activeJobs.length ≤ MAX_CONCURRENT_JOBS) :
    s'.activeJobs.length ≤ MAX_CONCURRENT_JOBS := by
  cases h with
  | poll => exact pollAndProcessJobs_active_le s hlen
  | startImport i hmem => exact hlen
  | startExport i hmem => exact hlen
  | finishImport i ok hmem => exact hlen
  | finishExport i ok hmem => exact hlen
  | settle i =>
      have : (s.activeJobs.filter (fun x => x ≠ i)).length ≤ s.activeJobs.length :=
        List.length_filter_le _ _
      simpa [settleJob] using le_trans this hlen
  | createImport j hp => exact hlen
  | createExport j hp => exact hlen

/-- Jobs claimed by a poll were pending, outside the active set, and in
the corresponding table. -/
theorem poll_claimed_mem (jobs : List WorkerJob) (active : List Nat) (n : Nat) :
    ∀ j ∈ (pendingSorted jobs active).take n,
      j ∈ jobs ∧ j.status = .pending ∧ j.id ∉ active := by
  intro j hj
  have hm : j ∈ pendingSorted jobs active := List.mem_of_mem_take hj
  unfold pendingSorted at hm
  rw [List.mem_mergeSort] at hm
  have hmem := List.mem_of_mem_filter hm
  have hprop := List.of_mem_filter hm
  simp only [Bool.and_eq_true, beq_iff_eq] at hprop
  refine ⟨hmem, hprop.1, ?_⟩
  intro hcontra
  have : active.contains j.id = true := by
    simpa [List.contains] using hcontra
  rw [this] at hprop
  simp at hprop

/-- C7: the worker loop never exceeds `MAX_CONCURRENT_JOBS = 3`. From
any start with an empty active set, every reachable state has at most 3
active jobs; each poll cycle claims at most the remaining capacity,
taking pending imports (ascending by creation time) first and pending
exports only with what capacity remains, never an id already active;
and settling removes exactly the settled id from the active set,
success and failure alike. -/
theorem c7_worker_concurrency_cap :
    (∀ (init s' : WorkerState), init.activeJobs = [] → ReachableW init s' →
        s'.activeJobs.length ≤ MAX_CONCURRENT_JOBS) ∧
    (∀ s : WorkerState,
      (pollAndProcessJobs s).2.1.length + (pollAndProcessJobs s).2.2.length ≤
          MAX_CONCURRENT_JOBS - s.activeJobs.length ∧
        (pollAndProcessJobs s).2.2.length ≤
          (MAX_CONCURRENT_JOBS - s.activeJobs.length) -
            (pollAndProcessJobs s).2.1.length ∧
        (∀ j ∈ (pollAndProcessJobs s).2.1,
          j ∈ s.importJobs ∧ j.status = .pending ∧ j.id ∉ s.activeJobs) ∧
        (∀ j ∈ (pollAndProcessJobs s).2.2,
          j ∈ s.exportJobs ∧ j.status = .pending ∧ j.id ∉ s.activeJobs) ∧
        (pollAndProcessJobs s).2.1.Pairwise
          (fun a b => a.createdAt ≤ b.createdAt)) ∧
    (∀ (s : WorkerState) (i : Nat),
      i ∉ (settleJob s i).activeJobs ∧
        ∀ x ∈ s.activeJobs, x ≠ i → x ∈ (settleJob s i).activeJobs) := by
  refine ⟨?_, ?_, ?_⟩
  · intro init s' hinit hreach
    induction hreach with
    | refl => simp [hinit, MAX_CONCURRENT_JOBS]
    | tail hsteps hstep ih => exact wstep_active_le _ _ hstep ih
  · intro s
    by_cases hc : MAX_CONCURRENT_JOBS ≤ s.activeJobs.length
    · have hpoll : pollAndProcessJobs s = (s, [], []) := by
        unfold pollAndProcessJobs
        simp [hc]
      rw [hpoll]
      refine ⟨by simp, by simp, by simp, by simp, by simp⟩
    · have hsorted : (pendingSorted s.importJobs s.activeJobs).Pairwise
          (fun a b => a.createdAt ≤ b.createdAt) := by
        unfold pendingSorted
        have hp := @List.sorted_mergeSort WorkerJob
          (fun a b => decide (a.createdAt ≤ b.createdAt))
          (fun a b c hab hbc => by
            simp only [decide_eq_true_eq] at hab hbc ⊢
            omega)
          (fun a b => by
            simp only [Bool.or_eq_true, decide_eq_true_eq]
            omega)
          (s.importJobs.filter
            (fun j => j.status == JobStatus.pending && !(s.activeJobs.contains j.id)))
        exact hp.imp (fun h => by simpa using h)
      refine ⟨?_, ?_, ?_, ?_, ?_⟩
      · simp only [pollAndProcessJobs, hc, if_false]
        have h1 := List.length_take_le (MAX_CONCURRENT_JOBS - s.activeJobs.length)
          (pendingSorted s.importJobs s.activeJobs)
        have h2 := List.length_take_le
          ((MAX_CONCURRENT_JOBS - s.activeJobs.length) -
            ((pendingSorted s.importJobs s.activeJobs).take
              (MAX_CONCURRENT_JOBS - s.activeJobs.length)).length)
          (pendingSorted s.exportJobs s.activeJobs)
        omega
      · simp only [pollAndProcessJobs, hc, if_false]
        have h2 := List.length_take_le
          ((MAX_CONCURRENT_JOBS - s.activeJobs.length) -
            ((pendingSorted s.importJobs s.activeJobs).take
              (MAX_CONCURRENT_JOBS - s.activeJobs.length)).length)
          (pendingSorted s.exportJobs s.activeJobs)
        simp only [List.mem_append] at h2 ⊢
        exact h2
      · simp only [pollAndProcessJobs, hc, if_false]
        exact poll_claimed_mem s.importJobs s.activeJobs _
      · simp only [pollAndProcessJobs, hc, if_false]
        exact poll_claimed_mem s.exportJobs s.activeJobs _
      · simp only [pollAndProcessJobs, hc, if_false]
        exact hsorted.sublist (List.take_sublist _ _)
  · intro s i
    constructor
    · intro hmem
      simp only [settleJob] at hmem
      have := List.of_mem_filter hmem
      simp at this
    · intro x hx hne
      simp only [settleJob]
      exact List.mem_filter.mpr ⟨hx, by simpa using hne⟩

/-- Five pending import jobs for the C7 witness. -/
def c7Init : WorkerState :=
  { importJobs :=
      [⟨1, 10, .pending⟩, ⟨2, 20, .pending⟩, ⟨3, 30, .pending⟩,
       ⟨4, 40, .pending⟩, ⟨5, 50, .pending⟩],
    exportJobs := [], activeJobs := [] }

/-- C7 witness: the cap invariant applied to the state reached by one
poll over five pending jobs, and the poll/settle clauses at concrete
inputs. -/
theorem c7_worker_concurrency_cap_witness :
    (pollAndProcessJobs c7Init).1.activeJobs.length ≤ MAX_CONCURRENT_JOBS ∧
    (pollAndProcessJobs c7Init).2.1.length + (pollAndProcessJobs c7Init).2.2.length ≤
      MAX_CONCURRENT_JOBS - c7Init.activeJobs.length ∧
    5 ∉ (settleJob (pollAndProcessJobs c7Init).1 5).activeJobs :=
  ⟨c7_worker_concurrency_cap.1 c7Init (pollAndProcessJobs c7Init).1 rfl
      (Relation.ReflTransGen.single (WStep.poll c7Init)),
   (c7_worker_concurrency_cap.2.1 c7Init).1,
   (c7_worker_concurrency_cap.2.2 (pollAndProcessJobs c7Init).1 5).1⟩

/-! ### C1/C3: counter and error-index bookkeeping of the streaming
processors -/

/-- The number of stream elements that fail parse+validation. -/
def countFails {β : Type} (proc : β → Except PipeErr ImportRecord)
    (ls : List β) : Nat :=
  ls.countP (fun b => match proc b with | .ok _ => false | .error _ => true)

/-- The ImportError rows the per-record loop writes for parse/validation
failures, with their stream indices, starting at index `i`. -/
def valErrors {β : Type} (proc : β → Except PipeErr ImportRecord)
    (ed : β → ErrData) (jobId : Nat) : Nat → List β → List ImportErrorRow
  | _, [] => []
  | i, b :: bs =>
      match proc b with
      | .ok _ => valErrors proc ed jobId (i + 1) bs
      | .error e => recordError jobId i (ed b) e :: valErrors proc ed jobId (i + 1) bs

/-- The per-record loop common to all three processors, folded over a
stream. -/
def ingestFold {β : Type} (upsert : Store → ImportRecord → Except PipeErr Store)
    (jobId : Nat) (proc : β → Except PipeErr ImportRecord) (ed : β → ErrData)
    (ls : List β) (ist : IngestState) : IngestState :=
  ls.foldl (fun ist b => ingestRecord upsert jobId (proc b) (ed b) ist) ist

/-- One `ingestRecord` advances the stream index by one, accounts the
record in exactly one of success/batch/error, and leaves the job's
`totalRecords` and status untouched. -/
theorem ingestRecord_counts (upsert : Store → ImportRecord → Except PipeErr Store)
    (jobId : Nat) (parsed : Except PipeErr ImportRecord) (ed : ErrData)
    (ist : IngestState) :
    (ingestRecord upsert jobId parsed ed ist).recordIndex = ist.recordIndex + 1 ∧
    (ingestRecord upsert jobId parsed ed ist).successCount +
        (ingestRecord upsert jobId parsed ed ist).batch.length +
        (ingestRecord upsert jobId parsed ed ist).errorCount =
      ist.successCount + ist.batch.length + ist.errorCount + 1 ∧
    (ingestRecord upsert jobId parsed ed ist).job.totalRecords =
      ist.job.totalRecords := by
  cases parsed with
  | error e =>
      refine ⟨by simp [ingestRecord], ?_, by simp [ingestRecord]⟩
      simp only [ingestRecord]
      omega
  | ok record =>
      have hspec := processBatch_spec upsert jobId
        (ist.batch ++ [(record, ist.recordIndex)]) ist.job ist.store ist.errors
      have h1 := hspec.1
      have h5 := hspec.2.2.2.2.1
      simp only [List.length_append, List.length_cons, List.length_nil] at h1
      by_cases hfull : BATCH_SIZE ≤ ist.batch.length + 1
      · refine ⟨?_, ?_, ?_⟩
        · simp [ingestRecord, hfull]
        · simp [ingestRecord, hfull]
          omega
        · simp [ingestRecord, hfull, h5]
      · refine ⟨?_, ?_, ?_⟩
        · simp [ingestRecord, hfull]
        · simp [ingestRecord, hfull]
          omega
        · simp [ingestRecord, hfull]

/-- Under failure-free upserts, `ingestRecord` on a valid record leaves
the error counter and the error table unchanged. -/
theorem ingestRecord_errors_ok (upsert : Store → ImportRecord → Except PipeErr Store)
    (h : ∀ st r, ∃ st', upsert st r = .ok st') (jobId : Nat)
    (record : ImportRecord) (ed : ErrData) (ist : IngestState) :
    (ingestRecord upsert jobId (.ok record) ed ist).errorCount = ist.errorCount ∧
    (ingestRecord upsert jobId (.ok record) ed ist).errors = ist.errors := by
  obtain ⟨st', hst'⟩ := processBatchLoop_allOk upsert h jobId
    (ist.batch ++ [(record, ist.recordIndex)]) 0 0 ist.store ist.errors
  by_cases hfull : BATCH_SIZE ≤ ist.batch.length + 1
  · constructor
    · simp [ingestRecord, hfull, processBatch, hst']
    · simp [ingestRecord, hfull, processBatch, hst']
  · constructor
    · simp [ingestRecord, hfull]
    · simp [ingestRecord, hfull]

/-- `ingestRecord` on a failed record adds one to the error counter and
appends exactly its error row. -/
theorem ingestRecord_errors_fail (upsert : Store → ImportRecord → Except PipeErr Store)
    (jobId : Nat) (e : PipeErr) (ed : ErrData) (ist : IngestState) :
    (ingestRecord upsert jobId (.error e) ed ist).errorCount = ist.errorCount + 1 ∧
    (ingestRecord upsert jobId (.error e) ed ist).errors =
      ist.errors ++ [recordError jobId ist.recordIndex ed e] := by
  constructor
  · simp [ingestRecord]
  · simp [ingestRecord]

/-- Unfolding `countFails` over a cons cell. -/
theorem countFails_cons {β : Type} (proc : β → Except PipeErr ImportRecord)
    (b : β) (bs : List β) :
    countFails proc (b :: bs) =
      (match proc b with | .ok _ => 0 | .error _ => 1) + countFails proc bs := by
  cases hp : proc b <;> (simp [countFails, List.countP_cons, hp]; try omega)

/-- Additive bookkeeping of the per-record fold: the stream index grows
by the stream length, every element lands in exactly one of
success/batch/error, and `totalRecords` is preserved. -/
theorem ingestFold_counts {β : Type} (upsert : Store → ImportRecord → Except PipeErr Store)
    (jobId : Nat) (proc : β → Except PipeErr ImportRecord) (ed : β → ErrData) :
    ∀ (ls : List β) (ist : IngestState),
      (ingestFold upsert jobId proc ed ls ist).recordIndex =
          ist.recordIndex + ls.length ∧
        (ingestFold upsert jobId proc ed ls ist).successCount +
            (ingestFold upsert jobId proc ed ls ist).batch.length +
            (ingestFold upsert jobId proc ed ls ist).errorCount =
          ist.successCount + ist.batch.length + ist.errorCount + ls.length ∧
        (ingestFold upsert jobId proc ed ls ist).job.totalRecords =
          ist.job.totalRecords := by
  intro ls
  induction ls with
  | nil => intro ist; simp [ingestFold]
  | cons b bs ih =>
      intro ist
      have hstep := ingestRecord_counts upsert jobId (proc b) (ed b) ist
      have hrest := ih (ingestRecord upsert jobId (proc b) (ed b) ist)
      simp only [ingestFold, List.foldl_cons] at hrest ⊢
      refine ⟨?_, ?_, ?_⟩
      · rw [hrest.1, hstep.1, List.length_cons]
        omega
      · rw [hrest.2.1, List.length_cons]
        omega
      · rw [hrest.2.2, hstep.2.2]

/-- Under failure-free upserts, the fold's error counter counts exactly
the parse/validation failures, and the error table extends by exactly
their rows at their stream indices. -/
theorem ingestFold_errors {β : Type} (upsert : Store → ImportRecord → Except PipeErr Store)
    (h : ∀ st r, ∃ st', upsert st r = .ok st') (jobId : Nat)
    (proc : β → Except PipeErr ImportRecord) (ed : β → ErrData) :
    ∀ (ls : List β) (ist : IngestState),
      (ingestFold upsert jobId proc ed ls ist).errorCount =
          ist.errorCount + countFails proc ls ∧
        (ingestFold upsert jobId proc ed ls ist).errors =
          ist.errors ++ valErrors proc ed jobId ist.recordIndex ls := by
  intro ls
  induction ls with
  | nil => intro ist; simp [ingestFold, countFails, valErrors]
  | cons b bs ih =>
      intro ist
      have hidx := (ingestRecord_counts upsert jobId (proc b) (ed b) ist).1
      have hrest := ih (ingestRecord upsert jobId (proc b) (ed b) ist)
      simp only [ingestFold, List.foldl_cons] at hrest ⊢
      cases hp : proc b with
      | ok record =>
          have hok := ingestRecord_errors_ok upsert h jobId record (ed b) ist
          rw [hp] at hidx hrest
          refine ⟨?_, ?_⟩
          · rw [hrest.1, hok.1, countFails_cons]
            simp [hp]
          · rw [hrest.2, hok.2, hidx]
            simp only [valErrors, hp]
      | error e =>
          have hfail := ingestRecord_errors_fail upsert jobId e (ed b) ist
          rw [hp] at hidx hrest
          refine ⟨?_, ?_⟩
          · rw [hrest.1, hfail.1, countFails_cons]
            simp only [hp]
            omega
          · rw [hrest.2, hfail.2, hidx]
            simp only [valErrors, hp]
            simp

/-- The final flush empties the batch, moves its records into the
counters, and preserves the index and `totalRecords`. -/
theorem flushBatch_spec (upsert : Store → ImportRecord → Except PipeErr Store)
    (jobId : Nat) (st : IngestState) :
    (flushBatch upsert jobId st).batch = [] ∧
    (flushBatch upsert jobId st).recordIndex = st.recordIndex ∧
    (flushBatch upsert jobId st).successCount + (flushBatch upsert jobId st).errorCount =
      st.successCount + st.errorCount + st.batch.length ∧
    (flushBatch upsert jobId st).job.totalRecords = st.job.totalRecords := by
  by_cases hb : 0 < st.batch.length
  · have hspec := processBatch_spec upsert jobId st.batch st.job st.store st.errors
    have h1 := hspec.1
    have h5 := hspec.2.2.2.2.1
    refine ⟨?_, ?_, ?_, ?_⟩
    · simp [flushBatch, hb]
    · simp [flushBatch, hb]
    · simp only [flushBatch, hb, if_true]
      omega
    · simp [flushBatch, hb, h5]
  · have hempty : st.batch = [] := by
      have : st.batch.length = 0 := by omega
      exact List.length_eq_zero.mp this
    refine ⟨?_, ?_, ?_, ?_⟩ <;> simp [flushBatch, hb, hempty]

/-- Under failure-free upserts the final flush adds no errors. -/
theorem flushBatch_errors (upsert : Store → ImportRecord → Except PipeErr Store)
    (h : ∀ st r, ∃ st', upsert st r = .ok st') (jobId : Nat) (st : IngestState) :
    (flushBatch upsert jobId st).errorCount = st.errorCount ∧
    (flushBatch upsert jobId st).errors = st.errors := by
  unfold flushBatch
  by_cases hb : 0 < st.batch.length
  · obtain ⟨st', hst'⟩ := processBatchLoop_allOk upsert h jobId st.batch 0 0
      st.store st.errors
    simp [hb, processBatch, hst']
  · simp [hb]

/-- A fold whose step ignores elements failing `p` equals the fold over
the filtered list. -/
theorem foldl_skip {α β : Type} (f : α → β → α) (p : β → Bool)
    (hskip : ∀ a b, p b = false → f a b = a) :
    ∀ (l : List β) (a : α), l.foldl f a = (l.filter p).foldl f a := by
  intro l
  induction l with
  | nil => intro a; rfl
  | cons b bs ih =>
      intro a
      cases hp : p b with
      | true => simp only [List.foldl_cons, List.filter_cons, hp, if_true]; exact ih _
      | false =>
          simp only [List.foldl_cons, List.filter_cons, hp, if_false]
          rw [hskip a b hp]
          exact ih a

/-- Folds of pointwise-equal steps agree. -/
theorem foldl_ext_mem {α β : Type} (f g : α → β → α) :
    ∀ (l : List β) (a : α), (∀ b ∈ l, ∀ x, f x b = g x b) →
      l.foldl f a = l.foldl g a := by
  intro l
  induction l with
  | nil => intro a _; rfl
  | cons b bs ih =>
      intro a hbg
      simp only [List.foldl_cons]
      rw [hbg b (by simp)]
      exact ih _ (fun c hc x => hbg c (by simp [hc]) x)

/-- The NDJSON fold skips blank lines and otherwise runs the per-record
loop on `JSON.parse` + validation. -/
theorem ndjson_fold_eq (pv : String → Except PipeErr JVal) (res : ResourceType)
    (upsert : Store → ImportRecord → Except PipeErr Store) (jobId : Nat)
    (lines : List String) (ist : IngestState) :
    lines.foldl (ndjsonStep pv res upsert jobId) ist =
      ingestFold upsert jobId (fun l => (pv l).bind (validateRecord res))
        ErrData.line (lines.filter (fun l => !(isBlankLine l))) ist := by
  rw [foldl_skip (ndjsonStep pv res upsert jobId) (fun l => !(isBlankLine l))
    (fun a b hb => by
      have : isBlankLine b = true := by simpa using hb
      simp [ndjsonStep, this])]
  exact foldl_ext_mem _ _ _ ist (fun l hl x => by
    have hbl : isBlankLine l = false := by
      have := List.of_mem_filter hl
      simpa using this
    simp [ndjsonStep, hbl])

/-- Counter reconciliation of `processNdjsonFile`: with failure-free
upserts, `totalRecords` is the number of non-blank lines N,
`successCount + errorCount = N`, `errorCount` is the number of lines
failing parse+validation, and the error table lists exactly those
failures indexed from 0. -/
theorem processNdjsonFile_spec (pv : String → Except PipeErr JVal)
    (res : ResourceType) (upsert : Store → ImportRecord → Except PipeErr Store)
    (jobId : Nat) (job : JobRow) (store : Store) (lines : List String)
    (h : ∀ st r, ∃ st', upsert st r = .ok st') :
    (processNdjsonFile pv res upsert jobId job store lines).job.totalRecords =
        ((lines.filter (fun l => !(isBlankLine l))).length : Int) ∧
      (processNdjsonFile pv res upsert jobId job store lines).job.successCount +
          (processNdjsonFile pv res upsert jobId job store lines).job.errorCount =
        ((lines.filter (fun l => !(isBlankLine l))).length : Int) ∧
      (processNdjsonFile pv res upsert jobId job store lines).job.errorCount =
        (countFails (fun l => (pv l).bind (validateRecord res))
          (lines.filter (fun l => !(isBlankLine l))) : Int) ∧
      (processNdjsonFile pv res upsert jobId job store lines).errors =
        valErrors (fun l => (pv l).bind (validateRecord res)) ErrData.line jobId 0
          (lines.filter (fun l => !(isBlankLine l))) := by
  have hfold := ingestFold_counts upsert jobId
    (fun l => (pv l).bind (validateRecord res)) ErrData.line
    (lines.filter (fun l => !(isBlankLine l))) (initIngest job store)
  have herr := ingestFold_errors upsert h jobId
    (fun l => (pv l).bind (validateRecord res)) ErrData.line
    (lines.filter (fun l => !(isBlankLine l))) (initIngest job store)
  have hfl := flushBatch_spec upsert jobId
    (ingestFold upsert jobId (fun l => (pv l).bind (validateRecord res))
      ErrData.line (lines.filter (fun l => !(isBlankLine l))) (initIngest job store))
  have hfe := flushBatch_errors upsert h jobId
    (ingestFold upsert jobId (fun l => (pv l).bind (validateRecord res))
      ErrData.line (lines.filter (fun l => !(isBlankLine l))) (initIngest job store))
  simp only [initIngest, List.length_nil] at hfold herr hfl hfe
  unfold processNdjsonFile
  rw [ndjson_fold_eq]
  simp only [initIngest]
  refine ⟨?_, ?_, ?_, ?_⟩
  · rw [hfl.2.1, hfold.1]
    simp
  · have h1 := hfl.2.2.1
    have h2 := hfold.2.1
    omega
  · have h1 := hfe.1
    have h2 := herr.1
    omega
  · rw [hfe.2, herr.2]
    simp

/-- Once the header is consumed (`recordIndex ≥ 1`), the CSV fold over
non-blank lines is the per-record loop with the fixed headers. -/
theorem csv_fold_after_header (res : ResourceType)
    (upsert : Store → ImportRecord → Except PipeErr Store) (jobId : Nat) :
    ∀ (ls : List String) (st : CsvState), 1 ≤ st.recordIndex →
      (∀ l ∈ ls, isBlankLine l = false) →
      ls.foldl (csvStep res upsert jobId) st =
        ⟨ingestFold upsert jobId
          (fun l => validateRecord res (csvRecord st.headers l)) ErrData.line
          ls st.toIngestState, st.headers⟩ := by
  intro ls
  induction ls with
  | nil => intro st _ _; rfl
  | cons l rest ih =>
      intro st hidx hnbl
      have hbl : isBlankLine l = false := hnbl l (by simp)
      have hnz : (st.recordIndex == 0) = false := by
        simp only [beq_eq_false_iff_ne, ne_eq]
        omega
      have hstep : csvStep res upsert jobId st l =
          ⟨ingestRecord upsert jobId (validateRecord res (csvRecord st.headers l))
            (.line l) st.toIngestState, st.headers⟩ := by
        simp [csvStep, hbl, hnz]
      have hidx' : 1 ≤ (ingestRecord upsert jobId
          (validateRecord res (csvRecord st.headers l)) (.line l)
          st.toIngestState).recordIndex := by
        have := (ingestRecord_counts upsert jobId
          (validateRecord res (csvRecord st.headers l)) (.line l)
          st.toIngestState).1
        omega
      simp only [List.foldl_cons, hstep]
      rw [ih _ hidx' (fun x hx => hnbl x (by simp [hx]))]
      rfl

/-- Counter reconciliation of `processCsvFile`: when the source has a
header line (first non-blank line `hd`) followed by data lines `tl`,
failure-free upserts give `totalRecords = tl.length`,
`successCount + errorCount = tl.length`, `errorCount` counting the data
lines that fail validation against the header's fields — and the error
rows carry stream indices starting at 1, since the header consumed
index 0. -/
theorem processCsvFile_spec (res : ResourceType)
    (upsert : Store → ImportRecord → Except PipeErr Store) (jobId : Nat)
    (job : JobRow) (store : Store) (lines : List String) (hd : String)
    (tl : List String) (h : ∀ st r, ∃ st', upsert st r = .ok st')
    (hnb : lines.filter (fun l => !(isBlankLine l)) = hd :: tl) :
    (processCsvFile res upsert jobId job store lines).job.totalRecords =
        (tl.length : Int) ∧
      (processCsvFile res upsert jobId job store lines).job.successCount +
          (processCsvFile res upsert jobId job store lines).job.errorCount =
        (tl.length : Int) ∧
      (processCsvFile res upsert jobId job store lines).job.errorCount =
        (countFails (fun l => validateRecord res
          (csvRecord ((splitComma hd).map jsTrim) l)) tl : Int) ∧
      (processCsvFile res upsert jobId job store lines).errors =
        valErrors (fun l => validateRecord res
            (csvRecord ((splitComma hd).map jsTrim) l)) ErrData.line jobId 1 tl := by
  have hhd : isBlankLine hd = false := by
    have hmem : hd ∈ lines.filter (fun l => !(isBlankLine l)) := by
      rw [hnb]; simp
    have := List.of_mem_filter hmem
    simpa using this
  have htl : ∀ l ∈ tl, isBlankLine l = false := by
    intro l hl
    have hmem : l ∈ lines.filter (fun l => !(isBlankLine l)) := by
      rw [hnb]; simp [hl]
    have := List.of_mem_filter hmem
    simpa using this
  have hskip : ∀ (a : CsvState) (b : String), (!(isBlankLine b)) = false →
      csvStep res upsert jobId a b = a := by
    intro a b hb
    have : isBlankLine b = true := by simpa using hb
    simp [csvStep, this]
  unfold processCsvFile
  rw [foldl_skip (csvStep res upsert jobId) (fun l => !(isBlankLine l)) hskip
    lines _, hnb, List.foldl_cons]
  have hstep0 : csvStep res upsert jobId
      { toIngestState := initIngest job store, headers := [] } hd =
      ⟨{ initIngest job store with recordIndex := 1 },
        (splitComma hd).map jsTrim⟩ := by
    simp [csvStep, hhd, initIngest]
  rw [hstep0]
  rw [csv_fold_after_header res upsert jobId tl _ (by simp) htl]
  have hfold := ingestFold_counts upsert jobId
    (fun l => validateRecord res (csvRecord ((splitComma hd).map jsTrim) l))
    ErrData.line tl { initIngest job store with recordIndex := 1 }
  have herr := ingestFold_errors upsert h jobId
    (fun l => validateRecord res (csvRecord ((splitComma hd).map jsTrim) l))
    ErrData.line tl { initIngest job store with recordIndex := 1 }
  have hfl := flushBatch_spec upsert jobId
    (ingestFold upsert jobId
      (fun l => validateRecord res (csvRecord ((splitComma hd).map jsTrim) l))
      ErrData.line tl { initIngest job store with recordIndex := 1 })
  have hfe := flushBatch_errors upsert h jobId
    (ingestFold upsert jobId
      (fun l => validateRecord res (csvRecord ((splitComma hd).map jsTrim) l))
      ErrData.line tl { initIngest job store with recordIndex := 1 })
  simp only [initIngest, List.length_nil] at hfold herr hfl hfe
  simp only [initIngest]
  refine ⟨?_, ?_, ?_, ?_⟩
  · have h1 := hfl.2.1
    have h2 := hfold.1
    omega
  · have h1 := hfl.2.2.1
    have h2 := hfold.2.1
    omega
  · have h1 := hfe.1
    have h2 := herr.1
    omega
  · rw [hfe.2, herr.2]
    simp

/-- The JSON-array loop is the per-record loop. -/
theorem json_fold_eq (res : ResourceType)
    (upsert : Store → ImportRecord → Except PipeErr Store) (jobId : Nat)
    (records : List JVal) (ist : IngestState) :
    records.foldl (jsonStep res upsert jobId) ist =
      ingestFold upsert jobId (fun v => validateRecord res v) ErrData.json
        records ist := rfl

/-- Counter reconciliation of `processJsonFile` on a top-level array:
`totalRecords` is set up front to the array length, and with
failure-free upserts the final counters satisfy
`successCount + errorCount = length` with `errorCount` counting the
elements failing validation, whose error rows are indexed from 0. -/
theorem processJsonFile_spec (res : ResourceType)
    (upsert : Store → ImportRecord → Except PipeErr Store) (jobId : Nat)
    (job : JobRow) (store : Store) (records : List JVal)
    (h : ∀ st r, ∃ st', upsert st r = .ok st') :
    ∃ out, processJsonFile res upsert jobId job store (.arr records) = .ok out ∧
      out.job.totalRecords = (records.length : Int) ∧
      out.job.successCount + out.job.errorCount = (records.length : Int) ∧
      out.job.errorCount =
        (countFails (fun v => validateRecord res v) records : Int) ∧
      out.errors = valErrors (fun v => validateRecord res v) ErrData.json jobId 0
        records := by
  have hfold := ingestFold_counts upsert jobId (fun v => validateRecord res v)
    ErrData.json records
    (initIngest { job with totalRecords := (records.length : Int) } store)
  have herr := ingestFold_errors upsert h jobId (fun v => validateRecord res v)
    ErrData.json records
    (initIngest { job with totalRecords := (records.length : Int) } store)
  have hfl := flushBatch_spec upsert jobId
    (ingestFold upsert jobId (fun v => validateRecord res v) ErrData.json records
      (initIngest { job with totalRecords := (records.length : Int) } store))
  have hfe := flushBatch_errors upsert h jobId
    (ingestFold upsert jobId (fun v => validateRecord res v) ErrData.json records
      (initIngest { job with totalRecords := (records.length : Int) } store))
  simp only [initIngest, List.length_nil] at hfold herr hfl hfe
  refine ⟨_, rfl, ?_, ?_, ?_, ?_⟩
  · simp only [processJsonFile, json_fold_eq, initIngest]
    have h1 := hfl.2.2.2
    have h2 := hfold.2.2
    rw [h1, h2]
  · simp only [processJsonFile, json_fold_eq, initIngest]
    have h1 := hfl.2.2.1
    have h2 := hfold.2.1
    omega
  · simp only [processJsonFile, json_fold_eq, initIngest]
    have h1 := hfe.1
    have h2 := herr.1
    omega
  · simp only [processJsonFile, json_fold_eq, initIngest]
    rw [hfe.2, herr.2]
    simp

/-- C1: counter reconciliation across all three source formats. When
every upsert succeeds (no store-level failure), each processor leaves
`totalRecords = N`, `successCount + errorCount = N` and
`errorCount = E`, where `N` is the number of records of the source —
non-blank lines for NDJSON, non-blank data lines after the header for
CSV, array elements for JSON — and `E` is the number of them failing
parse+validation. -/
theorem c1_counter_reconciliation
    (upsert : Store → ImportRecord → Except PipeErr Store)
    (h : ∀ st r, ∃ st', upsert st r = .ok st') :
    (∀ (pv : String → Except PipeErr JVal) (res : ResourceType) (jobId : Nat)
        (job : JobRow) (store : Store) (lines : List String),
        (processNdjsonFile pv res upsert jobId job store lines).job.totalRecords =
            ((lines.filter (fun l => !(isBlankLine l))).length : Int) ∧
          (processNdjsonFile pv res upsert jobId job store lines).job.successCount +
              (processNdjsonFile pv res upsert jobId job store lines).job.errorCount =
            ((lines.filter (fun l => !(isBlankLine l))).length : Int) ∧
          (processNdjsonFile pv res upsert jobId job store lines).job.errorCount =
            (countFails (fun l => (pv l).bind (validateRecord res))
              (lines.filter (fun l => !(isBlankLine l))) : Int)) ∧
    (∀ (res : ResourceType) (jobId : Nat) (job : JobRow) (store : Store)
        (lines : List String) (hd : String) (tl : List String),
        lines.filter (fun l => !(isBlankLine l)) = hd :: tl →
        (processCsvFile res upsert jobId job store lines).job.totalRecords =
            (tl.length : Int) ∧
          (processCsvFile res upsert jobId job store lines).job.successCount +
              (processCsvFile res upsert jobId job store lines).job.errorCount =
            (tl.length : Int) ∧
          (processCsvFile res upsert jobId job store lines).job.errorCount =
            (countFails (fun l => validateRecord res
              (csvRecord ((splitComma hd).map jsTrim) l)) tl : Int)) ∧
    (∀ (res : ResourceType) (jobId : Nat) (job : JobRow) (store : Store)
        (records : List JVal),
        ∃ out, processJsonFile res upsert jobId job store (.arr records) = .ok out ∧
          out.job.totalRecords = (records.length : Int) ∧
          out.job.successCount + out.job.errorCount = (records.length : Int) ∧
          out.job.errorCount =
            (countFails (fun v => validateRecord res v) records : Int)) := by
  refine ⟨?_, ?_, ?_⟩
  · intro pv res jobId job store lines
    have hs := processNdjsonFile_spec pv res upsert jobId job store lines h
    exact ⟨hs.1, hs.2.1, hs.2.2.1⟩
  · intro res jobId job store lines hd tl hnb
    have hs := processCsvFile_spec res upsert jobId job store lines hd tl h hnb
    exact ⟨hs.1, hs.2.1, hs.2.2.1⟩
  · intro res jobId job store records
    obtain ⟨out, h1, h2, h3, h4, _⟩ :=
      processJsonFile_spec res upsert jobId job store records h
    exact ⟨out, h1, h2, h3, h4⟩

/-- C1 witness: the NDJSON clause of the reconciliation theorem applied
to a concrete failure-free upsert and a two-line source whose first line
is blank, with its hypothesis discharged at that upsert. -/
theorem c1_counter_reconciliation_witness :
    (∀ (st : Store) (r : ImportRecord), ∃ st',
        (fun (st : Store) (_ : ImportRecord) =>
          (Except.ok st : Except PipeErr Store)) st r = .ok st') ∧
    ((processNdjsonFile (fun _ => .ok (.obj [])) .users
          (fun st _ => .ok st) 4 c2Job emptyStore ["", "x"]).job.totalRecords =
        (((["", "x"].filter (fun l => !(isBlankLine l))).length : Nat) : Int) ∧
      (processNdjsonFile (fun _ => .ok (.obj [])) .users
            (fun st _ => .ok st) 4 c2Job emptyStore ["", "x"]).job.successCount +
          (processNdjsonFile (fun _ => .ok (.obj [])) .users
            (fun st _ => .ok st) 4 c2Job emptyStore ["", "x"]).job.errorCount =
        (((["", "x"].filter (fun l => !(isBlankLine l))).length : Nat) : Int) ∧
      (processNdjsonFile (fun _ => .ok (.obj [])) .users
          (fun st _ => .ok st) 4 c2Job emptyStore ["", "x"]).job.errorCount =
        ((countFails (fun l => ((fun (_ : String) =>
              (Except.ok (JVal.obj []) : Except PipeErr JVal)) l).bind
            (validateRecord .users))
          (["", "x"].filter (fun l => !(isBlankLine l)))) : Int)) :=
  ⟨fun st _ => ⟨st, rfl⟩,
   (c1_counter_reconciliation (fun st _ => .ok st) (fun st _ => ⟨st, rfl⟩)).1
     (fun _ => .ok (.obj [])) .users 4 c2Job emptyStore ["", "x"]⟩

/-- Each stream element that fails parse+validation contributes to the
loop's error rows exactly the row `recordError jobId (i + k) …`, where
`k` is the element's 0-based position and `i` the stream's base index. -/
theorem valErrors_pos {β : Type} (proc : β → Except PipeErr ImportRecord)
    (ed : β → ErrData) (jobId : Nat) :
    ∀ (ls : List β) (i k : Nat) (hk : k < ls.length) (er : PipeErr),
      proc (ls.get ⟨k, hk⟩) = .error er →
      recordError jobId (i + k) (ed (ls.get ⟨k, hk⟩)) er ∈
        valErrors proc ed jobId i ls := by
  intro ls
  induction ls with
  | nil => intro i k hk; exact absurd hk (by simp)
  | cons b bs ih =>
      intro i k hk er her
      cases k with
      | zero =>
          have hb : proc b = .error er := her
          simp [valErrors, hb]
      | succ k' =>
          have hk' : k' < bs.length := by
            simp only [List.length_cons] at hk; omega
          have her' : proc (bs.get ⟨k', hk'⟩) = .error er := her
          have hmem := ih (i + 1) k' hk' er her'
          have harith : i + 1 + k' = i + (k' + 1) := by omega
          rw [harith] at hmem
          show recordError jobId (i + (k' + 1)) (ed (bs.get ⟨k', hk'⟩)) er ∈
            valErrors proc ed jobId i (b :: bs)
          cases hpb : proc b with
          | ok r => simpa [valErrors, hpb] using hmem
          | error e =>
              simp only [valErrors, hpb, List.mem_cons]
              exact Or.inr hmem

/-- C3 counterexample: in a two-line CSV source whose single data line
fails validation, the ImportError row created for that first data
record carries `recordIndex = 1`, not 0: the header line consumes
stream index 0. -/
theorem c3_first_csv_record_index_one :
    ((processCsvFile .users (fun st _ => .ok st) 7 c2Job emptyStore
        ["h", "bad"]).errors.map (fun e => e.recordIndex)) = [1] := by rfl

/-- C3 (amended): each failed record's ImportError row carries
`recordIndex = base + k` where `k` is the record's 0-based position
among the counted records of the stream (blank lines skipped without
consuming an index) and the base depends on the format: 0 for NDJSON
and JSON-array sources, but 1 for CSV, whose header line consumes
index 0. -/
theorem c3_record_index_base_by_format
    (upsert : Store → ImportRecord → Except PipeErr Store)
    (h : ∀ st r, ∃ st', upsert st r = .ok st') :
    (∀ (pv : String → Except PipeErr JVal) (res : ResourceType) (jobId : Nat)
        (job : JobRow) (store : Store) (lines : List String),
        (processNdjsonFile pv res upsert jobId job store lines).errors =
          valErrors (fun l => (pv l).bind (validateRecord res)) ErrData.line
            jobId 0 (lines.filter (fun l => !(isBlankLine l)))) ∧
    (∀ (res : ResourceType) (jobId : Nat) (job : JobRow) (store : Store)
        (lines : List String) (hd : String) (tl : List String),
        lines.filter (fun l => !(isBlankLine l)) = hd :: tl →
        (processCsvFile res upsert jobId job store lines).errors =
          valErrors (fun l => validateRecord res
            (csvRecord ((splitComma hd).map jsTrim) l)) ErrData.line jobId 1 tl) ∧
    (∀ (res : ResourceType) (jobId : Nat) (job : JobRow) (store : Store)
        (records : List JVal),
        ∃ out, processJsonFile res upsert jobId job store (.arr records) = .ok out ∧
          out.errors = valErrors (fun v => validateRecord res v) ErrData.json
            jobId 0 records) ∧
    (∀ (β : Type) (proc : β → Except PipeErr ImportRecord) (ed : β → ErrData)
        (jobId i k : Nat) (ls : List β) (hk : k < ls.length) (er : PipeErr),
        proc (ls.get ⟨k, hk⟩) = .error er →
        (recordError jobId (i + k) (ed (ls.get ⟨k, hk⟩)) er).recordIndex = i + k ∧
        recordError jobId (i + k) (ed (ls.get ⟨k, hk⟩)) er ∈
          valErrors proc ed jobId i ls) := by
  refine ⟨?_, ?_, ?_, ?_⟩
  · intro pv res jobId job store lines
    exact (processNdjsonFile_spec pv res upsert jobId job store lines h).2.2.2
  · intro res jobId job store lines hd tl hnb
    exact (processCsvFile_spec res upsert jobId job store lines hd tl h hnb).2.2.2
  · intro res jobId job store records
    obtain ⟨out, h1, _, _, _, h5⟩ :=
      processJsonFile_spec res upsert jobId job store records h
    exact ⟨out, h1, h5⟩
  · intro β proc ed jobId i k ls hk er her
    refine ⟨?_, valErrors_pos proc ed jobId ls i k hk er her⟩
    cases er <;> rfl

/-- C3 witness: the NDJSON clause of the index-base theorem applied to a
concrete failure-free upsert and a one-line source, with its hypothesis
discharged at that upsert. -/
theorem c3_record_index_base_by_format_witness :
    (∀ (st : Store) (r : ImportRecord), ∃ st',
        (fun (st : Store) (_ : ImportRecord) =>
          (Except.ok st : Except PipeErr Store)) st r = .ok st') ∧
    (processNdjsonFile (fun _ => .ok (.obj [])) .users
        (fun st _ => .ok st) 3 c2Job emptyStore ["x"]).errors =
      valErrors (fun l => ((fun (_ : String) =>
            (Except.ok (JVal.obj []) : Except PipeErr JVal)) l).bind
          (validateRecord .users)) ErrData.line 3 0
        (["x"].filter (fun l => !(isBlankLine l))) :=
  ⟨fun st _ => ⟨st, rfl⟩,
   (c3_record_index_base_by_format (fun st _ => .ok st)
       (fun st _ => ⟨st, rfl⟩)).1
     (fun _ => .ok (.obj [])) .users 3 c2Job emptyStore ["x"]⟩

/-! ### C8: source-level errors are job-fatal -/

/-- Is this JSON value a top-level array? -/
def isArrB : JVal → Bool
  | .arr _ => true
  | _ => false

/-- The source-level error conditions of `processImportJob`: no file
path on the job, a non-200 download response for a URL source, a
missing local/staged file, or — on the generic JSON path — file content
that is not parseable JSON or whose top-level value is not an array. -/
def sourceError (env : ImportEnv) : Bool :=
  match env.filePath with
  | none => true
  | some p =>
      (isUrlPath p && env.downloadStatus != 200) || env.fileMissing ||
      (match importFormat p with
       | .json =>
           (match env.jsonContent with
            | none => true
            | some v => !(isArrB v))
       | _ => false)

/-- The environment of a local `.json` source that exists but whose
bytes are not valid JSON (`JSON.parse` throws). -/
def c8Env : ImportEnv :=
  { filePath := some "data.json", downloadStatus := 200, fileMissing := false,
    srcLines := [], jsonContent := none, resource := .users,
    parseLine := fun _ => .ok .null }

/-- A freshly created pending job row. -/
def c8Job : JobRow :=
  { status := .pending, totalRecords := 0, successCount := 0,
    errorCount := 0, startedAtSet := false, completedAtSet := false }

/-- C8 counterexample: a present local `.json` file whose bytes are not
parseable JSON also fails the job and re-raises (`JSON.parse` throws
inside the guarded region), although none of the claim's three
enumerated conditions holds: the job has a file path, the source is not
a URL with a failed download, the file exists, and there is no
top-level JSON value at all (so in particular no non-array one). -/
theorem c8_unparseable_json_also_fatal :
    (processImportJob (fun st _ => .ok st) 1 c8Env c8Job emptyStore).thrown =
        some (.err "SyntaxError" "Unexpected token in JSON") ∧
      (processImportJob (fun st _ => .ok st) 1 c8Env c8Job emptyStore).job.status =
        .failed ∧
      c8Env.filePath = some "data.json" ∧
      isUrlPath "data.json" = false ∧
      c8Env.fileMissing = false ∧
      c8Env.jsonContent = none :=
  ⟨rfl, rfl, rfl, by decide, rfl, rfl⟩

/-- C8 (amended): `processImportJob` marks the job failed with a
completion timestamp and re-raises exactly when a source-level error
occurs — a missing file path, a non-200 download response, a missing
file, or (on the JSON path) unparseable content or a non-array
top-level value — and in that case the store is untouched and no
ImportError rows are written; otherwise the job completes and nothing
is re-raised. -/
theorem c8_source_errors_job_fatal
    (upsert : Store → ImportRecord → Except PipeErr Store) (jobId : Nat)
    (env : ImportEnv) (job0 : JobRow) (store : Store) :
    ((processImportJob upsert jobId env job0 store).thrown.isSome =
        sourceError env) ∧
    (sourceError env = true →
        (processImportJob upsert jobId env job0 store).job.status = .failed ∧
        (processImportJob upsert jobId env job0 store).job.completedAtSet = true ∧
        (processImportJob upsert jobId env job0 store).store = store ∧
        (processImportJob upsert jobId env job0 store).errors = []) ∧
    (sourceError env = false →
        (processImportJob upsert jobId env job0 store).job.status = .completed ∧
        (processImportJob upsert jobId env job0 store).thrown = none) := by
  cases hfp : env.filePath with
  | none => simp [processImportJob, sourceError, hfp]
  | some p =>
      cases hurl : (isUrlPath p && env.downloadStatus != 200) with
      | true => simp [processImportJob, sourceError, hfp, hurl]
      | false =>
          cases hfm : env.fileMissing with
          | true => simp [processImportJob, sourceError, hfp, hurl, hfm]
          | false =>
              cases hfmt : importFormat p with
              | ndjson =>
                  simp [processImportJob, sourceError, hfp, hurl, hfm, hfmt]
              | csv =>
                  simp [processImportJob, sourceError, hfp, hurl, hfm, hfmt]
              | json =>
                  cases hjc : env.jsonContent with
                  | none =>
                      simp [processImportJob, sourceError, hfp, hurl, hfm, hfmt,
                        hjc]
                  | some v =>
                      cases v <;>
                        simp [processImportJob, sourceError, hfp, hurl, hfm,
                          hfmt, hjc, processJsonFile, isArrB]

/-- C8 witness: the failure clause of the theorem applied at the
concrete unparseable-JSON environment, its `sourceError` hypothesis
discharged by evaluation. -/
theorem c8_source_errors_job_fatal_witness :
    sourceError c8Env = true ∧
    ((processImportJob (fun st _ => Except.ok st) 1 c8Env c8Job
          emptyStore).job.status = .failed ∧
      (processImportJob (fun st _ => Except.ok st) 1 c8Env c8Job
          emptyStore).job.completedAtSet = true ∧
      (processImportJob (fun st _ => Except.ok st) 1 c8Env c8Job
          emptyStore).store = emptyStore ∧
      (processImportJob (fun st _ => Except.ok st) 1 c8Env c8Job
          emptyStore).errors = []) :=
  ⟨rfl,
   (c8_source_errors_job_fatal (fun st _ => Except.ok st) 1 c8Env c8Job
       emptyStore).2.1 rfl⟩

end BulkImport
